import Mathlib

/-!
# alphaWrapTriMesh: marshalling and buffer lifecycle

A shallow embedding of `alphaWrapTriMesh` from `cgal_alpha_wrapping_cpp.h`.

* `double` values are only copied by the function, never computed with, so the
  coordinate type is a parameter `R`.
* `size_t` values are natural numbers.  The only arithmetic on them is
  `size / 3`, `i * 3 + k` with `i < size / 3`, and the counter `vertex_idx++`
  that is bounded by the number of surface vertices, so no wrap-around occurs.
* Raw arrays live in an explicit heap of blocks with release events.
* The external algorithm `CGAL::alpha_wrap_3` is a parameter.
-/

namespace AlphaWrap

/-! ## Data model -/

/-- Address of a heap block; `0` is the null pointer. -/
abbrev Ptr := Nat

/-- The handle `Surface_mesh::Vertex_index`. -/
abbrev Vertex_index := Nat

/-- The handle `Surface_mesh::Face_index`. -/
abbrev Face_index := Nat

/-- The point type `K::Point_3`: three stored coordinates. -/
structure Point_3 (R : Type) where
  x : R
  y : R
  z : R
deriving DecidableEq, Repr

/-- Contents of one array allocation.  A cell is `none` while it is still
indeterminate (fresh from `new T[n]`). -/
inductive Cells (R : Type) where
  | doubles (cs : List (Option R))
  | sizes (cs : List (Option Nat))
deriving DecidableEq, Repr

/-- One allocation: its cells and whether it has not been released yet. -/
structure Block (R : Type) where
  cells : Cells R
  live : Bool
deriving DecidableEq, Repr

/-- The free store.  Addresses are block identifiers and are never reused: the
block at address `p` (for `p > 0`) is `blocks[p - 1]`, and released blocks stay
in place with `live = false`.  `released` records every release event, oldest
first. -/
structure Heap (R : Type) where
  blocks : List (Block R)
  released : List Ptr
deriving DecidableEq, Repr

/-- The struct `BufferAttribute<T>`: a raw pointer and an element count. -/
structure BufferAttribute where
  arr : Ptr
  size : Nat
deriving DecidableEq, Repr

/-- The struct `TriMesh`. -/
structure TriMesh where
  vertices : BufferAttribute
  indices : BufferAttribute
deriving DecidableEq, Repr

/-- What the function uses of a `Surface_mesh`: the range `wrap.vertices()`,
the property map `wrap.point(v)`, the range `wrap.faces()` and, for a face `f`,
the range `vertices_around_face(wrap.halfedge(f), wrap)`. -/
structure Surface_mesh (R : Type) where
  vertices : List Vertex_index
  point : Vertex_index → Point_3 R
  faces : List Face_index
  vertices_around_face : Face_index → List Vertex_index

/-! ## Heap operations -/

/-- The block a pointer designates, if any. -/
def Heap.block {R : Type} (h : Heap R) (p : Ptr) : Option (Block R) :=
  if p = 0 then none else h.blocks[p - 1]?

/-- The read `arr[k]` through a `double*`; `none` is undefined behaviour. -/
def Heap.readDouble {R : Type} (h : Heap R) (p : Ptr) (k : Nat) : Option R :=
  match h.block p with
  | some ⟨Cells.doubles cs, true⟩ => (cs[k]?).join
  | _ => none

/-- The read `arr[k]` through a `size_t*`; `none` is undefined behaviour. -/
def Heap.readSize {R : Type} (h : Heap R) (p : Ptr) (k : Nat) : Option Nat :=
  match h.block p with
  | some ⟨Cells.sizes cs, true⟩ => (cs[k]?).join
  | _ => none

/-- The statement `delete[] p`: nothing for the null pointer, a release event
for a live block, undefined behaviour (`none`) otherwise. -/
def Heap.deleteArr {R : Type} (h : Heap R) (p : Ptr) : Option (Heap R) :=
  if p = 0 then some h
  else
    match h.blocks[p - 1]? with
    | some ⟨cs, true⟩ =>
        some ⟨h.blocks.set (p - 1) ⟨cs, false⟩, h.released ++ [p]⟩
    | _ => none

/-- The expression `new double[n]`: when the allocator succeeds (`ok`), a fresh
block of `n` indeterminate cells at a fresh address; `none` is `std::bad_alloc`. -/
def Heap.newDoubles {R : Type} (h : Heap R) (n : Nat) (ok : Bool) : Option (Heap R × Ptr) :=
  if ok then
    some (⟨h.blocks ++ [⟨Cells.doubles (List.replicate n none), true⟩], h.released⟩,
      h.blocks.length + 1)
  else none

/-- The expression `new size_t[n]`. -/
def Heap.newSizes {R : Type} (h : Heap R) (n : Nat) (ok : Bool) : Option (Heap R × Ptr) :=
  if ok then
    some (⟨h.blocks ++ [⟨Cells.sizes (List.replicate n none), true⟩], h.released⟩,
      h.blocks.length + 1)
  else none

/-- Overwrite the first cells of an array with the values of `src`. -/
def overwrite {α : Type} (cs : List (Option α)) (src : List α) : List (Option α) :=
  src.map some ++ cs.drop src.length

/-- The call `std::copy(src.begin(), src.end(), p)` into a `double*`; `none` is
undefined behaviour (dead block, wrong type, or too short). -/
def Heap.copyDoubles {R : Type} (h : Heap R) (src : List R) (p : Ptr) : Option (Heap R) :=
  if p = 0 then (if src.isEmpty then some h else none)
  else
    match h.blocks[p - 1]? with
    | some ⟨Cells.doubles cs, true⟩ =>
        if src.length ≤ cs.length then
          some ⟨h.blocks.set (p - 1) ⟨Cells.doubles (overwrite cs src), true⟩, h.released⟩
        else none
    | _ => none

/-- The call `std::copy(src.begin(), src.end(), p)` into a `size_t*`. -/
def Heap.copySizes {R : Type} (h : Heap R) (src : List Nat) (p : Ptr) : Option (Heap R) :=
  if p = 0 then (if src.isEmpty then some h else none)
  else
    match h.blocks[p - 1]? with
    | some ⟨Cells.sizes cs, true⟩ =>
        if src.length ≤ cs.length then
          some ⟨h.blocks.set (p - 1) ⟨Cells.sizes (overwrite cs src), true⟩, h.released⟩
        else none
    | _ => none

/-! ## Steps 1 and 2: the soup builder (lines 28-52) -/

/-- A counted loop `for (size_t i = start; i < start + n; ++i) body`. -/
def forRange {σ : Type} (body : Nat → σ → Option σ) : Nat → Nat → σ → Option σ
  | 0, _, s => some s
  | n + 1, i, s => (body i s).bind (forRange body n (i + 1))

/-- Body of the loop of lines 33-39: `points.emplace_back(arr[i*3], arr[i*3+1], arr[i*3+2])`. -/
def pointsBody {R : Type} (h : Heap R) (mesh : TriMesh) (i : Nat)
    (points : List (Point_3 R)) : Option (List (Point_3 R)) :=
  (h.readDouble mesh.vertices.arr (i * 3)).bind fun x =>
  (h.readDouble mesh.vertices.arr (i * 3 + 1)).bind fun y =>
  (h.readDouble mesh.vertices.arr (i * 3 + 2)).bind fun z =>
  some (points ++ [⟨x, y, z⟩])

/-- Body of the loop of lines 46-52: `triangles.push_back({arr[i*3], arr[i*3+1], arr[i*3+2]})`. -/
def trianglesBody {R : Type} (h : Heap R) (mesh : TriMesh) (i : Nat)
    (triangles : List (Nat × Nat × Nat)) : Option (List (Nat × Nat × Nat)) :=
  (h.readSize mesh.indices.arr (i * 3)).bind fun a =>
  (h.readSize mesh.indices.arr (i * 3 + 1)).bind fun b =>
  (h.readSize mesh.indices.arr (i * 3 + 2)).bind fun c =>
  some (triangles ++ [(a, b, c)])

/-- Step 1 (lines 29-39): the point sequence. -/
def buildPoints {R : Type} (h : Heap R) (mesh : TriMesh) : Option (List (Point_3 R)) :=
  let num_vertices := mesh.vertices.size / 3
  forRange (pointsBody h mesh) num_vertices 0 []

/-- Step 2 (lines 42-52): the triangle soup. -/
def buildTriangles {R : Type} (h : Heap R) (mesh : TriMesh) : Option (List (Nat × Nat × Nat)) :=
  let num_triangles := mesh.indices.size / 3
  forRange (trianglesBody h mesh) num_triangles 0 []

/-! ## Step 3: the external algorithm (line 56) -/

/-- Signature of `CGAL::alpha_wrap_3(points, triangles, alpha, offset, wrap)`:
the surface it stores into `wrap`, or `none` when it terminates abnormally. -/
abbrev WrapAlgorithm (R : Type) :=
  List (Point_3 R) → List (Nat × Nat × Nat) → R → R → Option (Surface_mesh R)

/-! ## Step 5: the result extractor (lines 61-93) -/

/-- The container `std::map<Surface_mesh::Vertex_index, size_t>`: at most one
entry per key. -/
abbrev VertexMap := List (Vertex_index × Nat)

/-- The stored value `vertex_map.find(k)->second`, if the key is present. -/
def VertexMap.find : VertexMap → Vertex_index → Option Nat
  | [], _ => none
  | (k1, v1) :: m, k => if k1 = k then some v1 else VertexMap.find m k

/-- The assignment `vertex_map[k] = v`: overwrites the entry of `k` or adds one. -/
def VertexMap.assign : VertexMap → Vertex_index → Nat → VertexMap
  | [], k, v => [(k, v)]
  | (k1, v1) :: m, k, v =>
      if k1 = k then (k, v) :: m else (k1, v1) :: VertexMap.assign m k v

/-- The read `vertex_map[k]`: the stored value, and for an absent key a
value-initialised entry (`0`) is inserted first. -/
def VertexMap.subscript (m : VertexMap) (k : Vertex_index) : Nat × VertexMap :=
  match VertexMap.find m k with
  | some v => (v, m)
  | none => (0, VertexMap.assign m k 0)

/-- Local variables of the vertex loop (lines 62-75). -/
structure VertexLoopState (R : Type) where
  new_vertices : List R
  vertex_map : VertexMap
  vertex_idx : Nat

/-- Body of the loop of lines 69-75 for the vertex `v`. -/
def vertexBody {R : Type} (wrap : Surface_mesh R) (s : VertexLoopState R)
    (v : Vertex_index) : VertexLoopState R :=
  let p := wrap.point v
  { new_vertices := s.new_vertices ++ [p.x] ++ [p.y] ++ [p.z]
    vertex_map := VertexMap.assign s.vertex_map v s.vertex_idx
    vertex_idx := s.vertex_idx + 1 }

/-- The loop of lines 69-75 over `wrap.vertices()`. -/
def extractVertices {R : Type} (wrap : Surface_mesh R) : VertexLoopState R :=
  wrap.vertices.foldl (vertexBody wrap) ⟨[], [], 0⟩

/-- Body of the inner loop of lines 80-82: `face_vertices.push_back(vertex_map[v])`. -/
def aroundBody (s : List Nat × VertexMap) (v : Vertex_index) : List Nat × VertexMap :=
  let r := VertexMap.subscript s.2 v
  (s.1 ++ [r.1], r.2)

/-- The text written by `std::cerr << "faces size: " << n << std::endl`. -/
def facesSizeLine (n : Nat) : String :=
  "faces size: " ++ toString n ++ "\n"

/-- Local variables of the face loop (lines 77-93) and the text sent to
`std::cerr`, one entry per statement of line 91. -/
structure FaceLoopState where
  new_indices : List Nat
  vertex_map : VertexMap
  cerr : List String

/-- Body of the loop of lines 78-93 for the face `f`. -/
def faceBody {R : Type} (wrap : Surface_mesh R) (s : FaceLoopState)
    (f : Face_index) : FaceLoopState :=
  let r := (wrap.vertices_around_face f).foldl aroundBody ([], s.vertex_map)
  let face_vertices := r.1
  if face_vertices.length = 3 then
    { new_indices := s.new_indices ++ [face_vertices.getD 0 0] ++ [face_vertices.getD 1 0]
        ++ [face_vertices.getD 2 0]
      vertex_map := r.2
      cerr := s.cerr }
  else
    { new_indices := s.new_indices
      vertex_map := r.2
      cerr := s.cerr ++ [facesSizeLine face_vertices.length] }

/-- The loop of lines 78-93 over `wrap.faces()`. -/
def extractFaces {R : Type} (wrap : Surface_mesh R) (vertex_map : VertexMap) : FaceLoopState :=
  wrap.faces.foldl (faceBody wrap) ⟨[], vertex_map, []⟩

/-- The vector `new_vertices` after step 5. -/
def extractedVertices {R : Type} (wrap : Surface_mesh R) : List R :=
  (extractVertices wrap).new_vertices

/-- The map `vertex_map` after the vertex loop. -/
def extractedVertexMap {R : Type} (wrap : Surface_mesh R) : VertexMap :=
  (extractVertices wrap).vertex_map

/-- The vector `new_indices` after step 5. -/
def extractedIndices {R : Type} (wrap : Surface_mesh R) : List Nat :=
  (extractFaces wrap (extractedVertexMap wrap)).new_indices

/-- The text sent to `std::cerr` during step 5. -/
def extractedDiagnostics {R : Type} (wrap : Surface_mesh R) : List String :=
  (extractFaces wrap (extractedVertexMap wrap)).cerr

/-! ## Step 6: the buffer swap (lines 95-108) -/

/-- How a call ends, with the state the caller is left with. -/
inductive Outcome (R : Type) where
  | returned (h : Heap R) (mesh : TriMesh) (cerr : List String)
  | threw (h : Heap R) (mesh : TriMesh) (cerr : List String)
  | undefined

/-- Lines 97-108.  `okV` and `okI` say whether the allocations of lines 102 and
107 succeed. -/
def swapBuffers {R : Type} (okV okI : Bool) (h : Heap R) (mesh : TriMesh)
    (new_vertices : List R) (new_indices : List Nat) (cerr : List String) : Outcome R :=
  -- line 97
  match h.deleteArr mesh.vertices.arr with
  | none => Outcome.undefined
  | some h1 =>
  -- line 98
  match h1.deleteArr mesh.indices.arr with
  | none => Outcome.undefined
  | some h2 =>
  -- line 101
  let mesh1 : TriMesh := { mesh with vertices := { mesh.vertices with size := new_vertices.length } }
  -- line 102
  match h2.newDoubles mesh1.vertices.size okV with
  | none => Outcome.threw h2 mesh1 cerr
  | some (h3, p) =>
  let mesh2 : TriMesh := { mesh1 with vertices := { mesh1.vertices with arr := p } }
  -- line 103
  match h3.copyDoubles new_vertices mesh2.vertices.arr with
  | none => Outcome.undefined
  | some h4 =>
  -- line 106
  let mesh3 : TriMesh := { mesh2 with indices := { mesh2.indices with size := new_indices.length } }
  -- line 107
  match h4.newSizes mesh3.indices.size okI with
  | none => Outcome.threw h4 mesh3 cerr
  | some (h5, q) =>
  let mesh4 : TriMesh := { mesh3 with indices := { mesh3.indices with arr := q } }
  -- line 108
  match h5.copySizes new_indices mesh4.indices.arr with
  | none => Outcome.undefined
  | some h6 => Outcome.returned h6 mesh4 cerr

/-! ## The whole function -/

/-- The function `alphaWrapTriMesh(mesh, alpha, offset)` run on the heap `h`. -/
def alphaWrapTriMesh {R : Type} (alpha_wrap_3 : WrapAlgorithm R) (okV okI : Bool)
    (h : Heap R) (mesh : TriMesh) (alpha offset : R) : Outcome R :=
  match buildPoints h mesh with
  | none => Outcome.undefined
  | some points =>
  match buildTriangles h mesh with
  | none => Outcome.undefined
  | some triangles =>
  match alpha_wrap_3 points triangles alpha offset with
  | none => Outcome.threw h mesh []
  | some wrap =>
  let vs := extractVertices wrap
  let fs := extractFaces wrap vs.vertex_map
  swapBuffers okV okI h mesh vs.new_vertices fs.new_indices fs.cerr

/-! ## Logical contents of a mesh buffer -/

/-- The values `read 0, ..., read (n - 1)`, provided every one of them is defined. -/
def readAll {α : Type} (read : Nat → Option α) : Nat → Option (List α)
  | 0 => some []
  | n + 1 => (readAll read n).bind fun l => (read n).map fun x => l ++ [x]

/-- The `size` values a `BufferAttribute<double>` refers to. -/
def Heap.doublesOf {R : Type} (h : Heap R) (b : BufferAttribute) : Option (List R) :=
  readAll (h.readDouble b.arr) b.size

/-- The `size` values a `BufferAttribute<size_t>` refers to. -/
def Heap.sizesOf {R : Type} (h : Heap R) (b : BufferAttribute) : Option (List Nat) :=
  readAll (h.readSize b.arr) b.size

/-- The pointer is null or designates a live array of `double`. -/
def Heap.ownsDoubles {R : Type} (h : Heap R) (p : Ptr) : Bool :=
  p == 0 ||
    match h.block p with
    | some ⟨Cells.doubles _, true⟩ => true
    | _ => false

/-- The pointer is null or designates a live array of `size_t`. -/
def Heap.ownsSizes {R : Type} (h : Heap R) (p : Ptr) : Bool :=
  p == 0 ||
    match h.block p with
    | some ⟨Cells.sizes _, true⟩ => true
    | _ => false

/-- A mesh buffer the function may be called with: each field owns its array
and all `size` elements of it are initialised. -/
def ValidMesh {R : Type} (h : Heap R) (mesh : TriMesh) : Prop :=
  (h.doublesOf mesh.vertices).isSome = true ∧ (h.sizesOf mesh.indices).isSome = true ∧
  h.ownsDoubles mesh.vertices.arr = true ∧ h.ownsSizes mesh.indices.arr = true

instance {R : Type} (h : Heap R) (mesh : TriMesh) : Decidable (ValidMesh h mesh) := by
  unfold ValidMesh; infer_instance

/-! ## Statement-level execution

The same function as a transition system, one transition per loop iteration or
statement, so that the state at every intermediate point is explicit. -/

/-- Where control stands. -/
inductive Phase where
  /-- At the head of the loop of line 33 with counter `i`. -/
  | pointsLoop (i : Nat)
  /-- At the head of the loop of line 46 with counter `i`. -/
  | trianglesLoop (i : Nat)
  /-- Before the call of line 56. -/
  | callWrap
  /-- At the head of the loop of line 69; `rest` is what the range still yields. -/
  | verticesLoop (rest : List Vertex_index)
  /-- At the head of the loop of line 78. -/
  | facesLoop (rest : List Face_index)
  /-- Before line 97. -/
  | deleteVertices
  /-- Before line 98. -/
  | deleteIndices
  /-- Before line 101. -/
  | setVerticesSize
  /-- Before line 102. -/
  | newVertices
  /-- Before line 103. -/
  | copyVertices
  /-- Before line 106. -/
  | setIndicesSize
  /-- Before line 107. -/
  | newIndices
  /-- Before line 108. -/
  | copyIndices
  /-- The function has returned. -/
  | returned
  /-- The call of line 56 terminated abnormally. -/
  | wrapFailed
  /-- A `new` expression of line 102 or 107 threw `std::bad_alloc`. -/
  | allocFailed
  /-- Undefined behaviour was reached. -/
  | undefinedBehaviour
deriving DecidableEq, Repr

/-- The heap, the caller's mesh and the local variables.  `wrap` is `none`
until line 56 has filled it in. -/
structure Config (R : Type) where
  phase : Phase
  heap : Heap R
  mesh : TriMesh
  points : List (Point_3 R)
  num_vertices : Nat
  triangles : List (Nat × Nat × Nat)
  num_triangles : Nat
  wrap : Option (Surface_mesh R)
  new_vertices : List R
  new_indices : List Nat
  vertex_map : VertexMap
  vertex_idx : Nat
  cerr : List String

/-- The configuration at the head of the first loop (lines 29-31 done). -/
def Config.init {R : Type} (h : Heap R) (mesh : TriMesh) : Config R :=
  { phase := Phase.pointsLoop 0
    heap := h
    mesh := mesh
    points := []
    num_vertices := mesh.vertices.size / 3
    triangles := []
    num_triangles := 0
    wrap := none
    new_vertices := []
    new_indices := []
    vertex_map := []
    vertex_idx := 0
    cerr := [] }

/-- One transition. -/
def step {R : Type} (alpha_wrap_3 : WrapAlgorithm R) (okV okI : Bool) (alpha offset : R)
    (c : Config R) : Config R :=
  match c.phase with
  | Phase.pointsLoop i =>
      if i < c.num_vertices then
        match pointsBody c.heap c.mesh i c.points with
        | some pts => { c with points := pts, phase := Phase.pointsLoop (i + 1) }
        | none => { c with phase := Phase.undefinedBehaviour }
      else
        { c with num_triangles := c.mesh.indices.size / 3, phase := Phase.trianglesLoop 0 }
  | Phase.trianglesLoop i =>
      if i < c.num_triangles then
        match trianglesBody c.heap c.mesh i c.triangles with
        | some ts => { c with triangles := ts, phase := Phase.trianglesLoop (i + 1) }
        | none => { c with phase := Phase.undefinedBehaviour }
      else { c with phase := Phase.callWrap }
  | Phase.callWrap =>
      match alpha_wrap_3 c.points c.triangles alpha offset with
      | some w => { c with wrap := some w, phase := Phase.verticesLoop w.vertices }
      | none => { c with phase := Phase.wrapFailed }
  | Phase.verticesLoop rest =>
      match c.wrap with
      | none => { c with phase := Phase.undefinedBehaviour }
      | some w =>
        match rest with
        | v :: rest1 =>
            let s := vertexBody w ⟨c.new_vertices, c.vertex_map, c.vertex_idx⟩ v
            { c with new_vertices := s.new_vertices, vertex_map := s.vertex_map,
                     vertex_idx := s.vertex_idx, phase := Phase.verticesLoop rest1 }
        | [] => { c with phase := Phase.facesLoop w.faces }
  | Phase.facesLoop rest =>
      match c.wrap with
      | none => { c with phase := Phase.undefinedBehaviour }
      | some w =>
        match rest with
        | f :: rest1 =>
            let s := faceBody w ⟨c.new_indices, c.vertex_map, c.cerr⟩ f
            { c with new_indices := s.new_indices, vertex_map := s.vertex_map,
                     cerr := s.cerr, phase := Phase.facesLoop rest1 }
        | [] => { c with phase := Phase.deleteVertices }
  | Phase.deleteVertices =>
      match c.heap.deleteArr c.mesh.vertices.arr with
      | some h1 => { c with heap := h1, phase := Phase.deleteIndices }
      | none => { c with phase := Phase.undefinedBehaviour }
  | Phase.deleteIndices =>
      match c.heap.deleteArr c.mesh.indices.arr with
      | some h1 => { c with heap := h1, phase := Phase.setVerticesSize }
      | none => { c with phase := Phase.undefinedBehaviour }
  | Phase.setVerticesSize =>
      { c with
        mesh := { c.mesh with vertices := { c.mesh.vertices with size := c.new_vertices.length } },
        phase := Phase.newVertices }
  | Phase.newVertices =>
      match c.heap.newDoubles c.mesh.vertices.size okV with
      | some (h1, p) =>
          { c with heap := h1,
                   mesh := { c.mesh with vertices := { c.mesh.vertices with arr := p } },
                   phase := Phase.copyVertices }
      | none => { c with phase := Phase.allocFailed }
  | Phase.copyVertices =>
      match c.heap.copyDoubles c.new_vertices c.mesh.vertices.arr with
      | some h1 => { c with heap := h1, phase := Phase.setIndicesSize }
      | none => { c with phase := Phase.undefinedBehaviour }
  | Phase.setIndicesSize =>
      { c with
        mesh := { c.mesh with indices := { c.mesh.indices with size := c.new_indices.length } },
        phase := Phase.newIndices }
  | Phase.newIndices =>
      match c.heap.newSizes c.mesh.indices.size okI with
      | some (h1, p) =>
          { c with heap := h1,
                   mesh := { c.mesh with indices := { c.mesh.indices with arr := p } },
                   phase := Phase.copyIndices }
      | none => { c with phase := Phase.allocFailed }
  | Phase.copyIndices =>
      match c.heap.copySizes c.new_indices c.mesh.indices.arr with
      | some h1 => { c with heap := h1, phase := Phase.returned }
      | none => { c with phase := Phase.undefinedBehaviour }
  | Phase.returned => c
  | Phase.wrapFailed => c
  | Phase.allocFailed => c
  | Phase.undefinedBehaviour => c

/-- The configuration after `n` transitions. -/
def run {R : Type} (alpha_wrap_3 : WrapAlgorithm R) (okV okI : Bool) (alpha offset : R) :
    Nat → Config R → Config R
  | 0, c => c
  | n + 1, c => run alpha_wrap_3 okV okI alpha offset n (step alpha_wrap_3 okV okI alpha offset c)

/-- Control is in steps 1 to 5: soup build, the call of line 56, or result
extraction, up to the point just before line 97. -/
def Phase.beforeSwap : Phase → Bool
  | Phase.pointsLoop _ => true
  | Phase.trianglesLoop _ => true
  | Phase.callWrap => true
  | Phase.verticesLoop _ => true
  | Phase.facesLoop _ => true
  | Phase.deleteVertices => true
  | Phase.wrapFailed => true
  | _ => false

/-- The way the call has ended, once it has. -/
def Config.outcome {R : Type} (c : Config R) : Option (Outcome R) :=
  match c.phase with
  | Phase.returned => some (Outcome.returned c.heap c.mesh c.cerr)
  | Phase.wrapFailed => some (Outcome.threw c.heap c.mesh c.cerr)
  | Phase.allocFailed => some (Outcome.threw c.heap c.mesh c.cerr)
  | Phase.undefinedBehaviour => some Outcome.undefined
  | _ => none

/-- Number of transitions from entry to the point just before line 97, for a
surface with `numV` vertices and `numF` faces. -/
def stepsToSwap (mesh : TriMesh) (numV numF : Nat) : Nat :=
  (mesh.vertices.size / 3 + 1) + (mesh.indices.size / 3 + 1) + 1 + (numV + 1) + (numF + 1)

/-- Final phases: the call has ended. -/
def Phase.final : Phase → Bool
  | Phase.returned => true
  | Phase.wrapFailed => true
  | Phase.allocFailed => true
  | Phase.undefinedBehaviour => true
  | _ => false

/-- From `c`, every sufficiently long run has ended with outcome `o`. -/
def Ends {R : Type} (alpha_wrap_3 : WrapAlgorithm R) (okV okI : Bool) (alpha offset : R)
    (c : Config R) (o : Outcome R) : Prop :=
  ∃ n, ∀ m, n ≤ m → (run alpha_wrap_3 okV okI alpha offset m c).outcome = some o

/-- The configuration just before line 97 when steps 1 to 5 complete. -/
def Config.atSwap {R : Type} (h : Heap R) (mesh : TriMesh) (points : List (Point_3 R))
    (triangles : List (Nat × Nat × Nat)) (wrap : Surface_mesh R) : Config R :=
  { phase := Phase.deleteVertices
    heap := h
    mesh := mesh
    points := points
    num_vertices := mesh.vertices.size / 3
    triangles := triangles
    num_triangles := mesh.indices.size / 3
    wrap := some wrap
    new_vertices := (extractVertices wrap).new_vertices
    new_indices := (extractFaces wrap (extractVertices wrap).vertex_map).new_indices
    vertex_map := (extractFaces wrap (extractVertices wrap).vertex_map).vertex_map
    vertex_idx := (extractVertices wrap).vertex_idx
    cerr := (extractFaces wrap (extractVertices wrap).vertex_map).cerr }

/-! ## Order-based index assignment -/

/-- Follows the design note "assign output indices by visitation order
directly": the output index of a vertex is its position in `wrap.vertices()`. -/
def visitationIndex {R : Type} (wrap : Surface_mesh R) (v : Vertex_index) : Option Nat :=
  if v ∈ wrap.vertices then some (wrap.vertices.indexOf v) else none

/-- The output index the face loop obtains for a vertex from the map built by
the vertex loop: the read `vertex_map[v]`. -/
def resolvedIndex {R : Type} (wrap : Surface_mesh R) (v : Vertex_index) : Nat :=
  (VertexMap.subscript (extractedVertexMap wrap) v).1

/-- The three values the vertex loop appends for the vertex `v`. -/
def coordinates {R : Type} (wrap : Surface_mesh R) (v : Vertex_index) : List R :=
  [(wrap.point v).x, (wrap.point v).y, (wrap.point v).z]

/-- The release events of `delete[] p`. -/
def releaseEvents (p : Ptr) : List Ptr := if p = 0 then [] else [p]

/-- The heap left by lines 97-108 on top of the blocks `B`. -/
def installedHeap {R : Type} (B : List (Block R)) (rel : List Ptr) (new_vertices : List R)
    (new_indices : List Nat) : Heap R :=
  ⟨B ++ [⟨Cells.doubles (new_vertices.map some), true⟩]
      ++ [⟨Cells.sizes (new_indices.map some), true⟩], rel⟩

/-! ## Sample data -/

/-- A surface with four vertices, one quad face and two triangle faces. -/
def quadAndTwoTriangles : Surface_mesh Int :=
  { vertices := [10, 11, 12, 13]
    point := fun v => ⟨v, 2 * v, 3 * v⟩
    faces := [0, 1, 2]
    vertices_around_face := fun f =>
      match f with
      | 0 => [10, 11, 12, 13]
      | 1 => [10, 11, 12]
      | _ => [12, 13, 10] }

/-- A heap holding one vertex (plus one stray value) and one triangle whose
third index is out of range. -/
def sampleHeap : Heap Int :=
  ⟨[⟨Cells.doubles [some 1, some 2, some 3, some 4], true⟩,
    ⟨Cells.sizes [some 0, some 0, some 7], true⟩], []⟩

/-- The mesh buffer stored in `sampleHeap`. -/
def sampleMesh : TriMesh := ⟨⟨1, 4⟩, ⟨2, 3⟩⟩

/-- An algorithm that returns `quadAndTwoTriangles` whatever it is given. -/
def sampleAlgorithm : WrapAlgorithm Int := fun _ _ _ _ => some quadAndTwoTriangles

/-- A heap holding a well-formed mesh buffer: one triangle on three vertices. -/
def triangleHeap : Heap Int :=
  ⟨[⟨Cells.doubles [some 0, some 0, some 0, some 1, some 0, some 0, some 0, some 1, some 0], true⟩,
    ⟨Cells.sizes [some 0, some 1, some 2], true⟩], []⟩

/-- The mesh buffer stored in `triangleHeap`. -/
def triangleMesh : TriMesh := ⟨⟨1, 9⟩, ⟨2, 3⟩⟩

/-- The heap after the run on `triangleHeap` with `sampleAlgorithm`: both old
arrays released, the two new arrays appended. -/
def triangleRunHeap : Heap Int :=
  ⟨[⟨Cells.doubles [some 0, some 0, some 0, some 1, some 0, some 0, some 0, some 1, some 0], false⟩,
    ⟨Cells.sizes [some 0, some 1, some 2], false⟩,
    ⟨Cells.doubles [some 10, some 20, some 30, some 11, some 22, some 33, some 12, some 24,
      some 36, some 13, some 26, some 39], true⟩,
    ⟨Cells.sizes [some 0, some 1, some 2, some 2, some 3, some 0], true⟩], [1, 2]⟩

/-- The mesh after the run on `triangleHeap` with `sampleAlgorithm`. -/
def triangleRunMesh : TriMesh := ⟨⟨3, 12⟩, ⟨4, 6⟩⟩

/-- The heap at the failure of the allocation of line 102 in the run on
`triangleHeap`: both old arrays released, nothing allocated. -/
def triangleFailHeap : Heap Int :=
  ⟨[⟨Cells.doubles [some 0, some 0, some 0, some 1, some 0, some 0, some 0, some 1, some 0], false⟩,
    ⟨Cells.sizes [some 0, some 1, some 2], false⟩], [1, 2]⟩

/-- The mesh at the failure of the allocation of line 102 in the run on `triangleHeap`. -/
def triangleFailMesh : TriMesh := ⟨⟨1, 12⟩, ⟨2, 3⟩⟩

/-- The heap after the run on `sampleHeap` with `sampleAlgorithm`. -/
def sampleRunHeap : Heap Int :=
  ⟨[⟨Cells.doubles [some 1, some 2, some 3, some 4], false⟩,
    ⟨Cells.sizes [some 0, some 0, some 7], false⟩,
    ⟨Cells.doubles [some 10, some 20, some 30, some 11, some 22, some 33, some 12, some 24,
      some 36, some 13, some 26, some 39], true⟩,
    ⟨Cells.sizes [some 0, some 1, some 2, some 2, some 3, some 0], true⟩], [1, 2]⟩

/-- The mesh after the run on `sampleHeap` with `sampleAlgorithm`. -/
def sampleRunMesh : TriMesh := ⟨⟨3, 12⟩, ⟨4, 6⟩⟩

/-- A surface with five vertices and a single quad face: vertex `9` lies on no
face and the others only on the quad. -/
def quadOnly : Surface_mesh Int :=
  { vertices := [5, 6, 7, 8, 9]
    point := fun v => ⟨v, v + 100, v + 200⟩
    faces := [0]
    vertices_around_face := fun _ => [5, 6, 7, 8] }

/-- The empty heap. -/
def emptyHeap : Heap Int := ⟨[], []⟩

/-- The empty mesh buffer: null pointers, 0 vertices and 0 indices. -/
def emptyMesh : TriMesh := ⟨⟨0, 0⟩, ⟨0, 0⟩⟩

/-- The surface with no vertex and no face. -/
def emptySurface : Surface_mesh Int :=
  { vertices := []
    point := fun _ => ⟨0, 0, 0⟩
    faces := []
    vertices_around_face := fun _ => [] }

/-- An algorithm that returns the empty surface for the empty soup and
terminates abnormally otherwise. -/
def emptyAlgorithm : WrapAlgorithm Int := fun points triangles _ _ =>
  if points.isEmpty && triangles.isEmpty then some emptySurface else none

/-- The phase is one in which the call has ended abnormally. -/
def Phase.failed : Phase → Bool
  | Phase.wrapFailed => true
  | Phase.allocFailed => true
  | Phase.undefinedBehaviour => true
  | _ => false

/-- A heap whose vertex buffer has one stray value (4 values) and whose index
buffer has two (5 values). -/
def strayHeap : Heap Int :=
  ⟨[⟨Cells.doubles [some 1, some 2, some 3, some 4], true⟩,
    ⟨Cells.sizes [some 0, some 0, some 0, some 5, some 6], true⟩], []⟩

/-- The mesh buffer stored in `strayHeap`. -/
def strayMesh : TriMesh := ⟨⟨1, 4⟩, ⟨2, 5⟩⟩

/-- A heap holding only the longest prefixes of the buffers of `strayHeap`
whose lengths are multiples of 3. -/
def prefixHeap : Heap Int :=
  ⟨[⟨Cells.sizes [some 0, some 0, some 0], true⟩,
    ⟨Cells.doubles [some 1, some 2, some 3], true⟩], []⟩

/-- The mesh buffer stored in `prefixHeap`. -/
def prefixMesh : TriMesh := ⟨⟨2, 3⟩, ⟨1, 3⟩⟩

/-- A surface that exposes no vertex but has one face with three vertices. -/
def unexposedTriangle : Surface_mesh Int :=
  { vertices := []
    point := fun v => ⟨v, v, v⟩
    faces := [0]
    vertices_around_face := fun _ => [7, 8, 9] }

/-- An algorithm that returns `unexposedTriangle` whatever it is given. -/
def unexposedAlgorithm : WrapAlgorithm Int := fun _ _ _ _ => some unexposedTriangle

/-- The number a sequence of decimal digit characters denotes. -/
def decimalValue (ds : List Char) : Nat :=
  ds.foldl (fun a c => 10 * a + (c.toNat - 48)) 0

/-- The face size a diagnostic line reports: the decimal number between the
12 characters of "faces size: " and the final newline. -/
def reportedFaceSize (line : String) : Nat :=
  decimalValue ((line.data.drop 12).dropLast)

/-- A surface with a five-vertex face, a triangle and a two-vertex face. -/
def mixedFaces : Surface_mesh Int :=
  { vertices := [1, 2, 3, 4, 5]
    point := fun v => ⟨v, 0, 0⟩
    faces := [0, 1, 2]
    vertices_around_face := fun f =>
      match f with
      | 0 => [1, 2, 3, 4, 5]
      | 1 => [1, 2, 3]
      | _ => [4, 5] }

/-- An algorithm that returns `mixedFaces` whatever it is given. -/
def mixedAlgorithm : WrapAlgorithm Int := fun _ _ _ _ => some mixedFaces

/-- A heap holding one vertex and no index array. -/
def verticesOnlyHeap : Heap Int :=
  ⟨[⟨Cells.doubles [some 1, some 2, some 3], true⟩], []⟩

/-- A mesh buffer with one vertex, no index and a null index pointer. -/
def verticesOnlyMesh : TriMesh := ⟨⟨1, 3⟩, ⟨0, 0⟩⟩

/-! ## The vertex map -/

theorem VertexMap.find_assign (m : VertexMap) (k k2 : Vertex_index) (v : Nat) :
    VertexMap.find (VertexMap.assign m k v) k2 = if k = k2 then some v else VertexMap.find m k2 := by
  induction m with
  | nil => simp [VertexMap.assign, VertexMap.find]
  | cons e m ih =>
    obtain ⟨k1, v1⟩ := e
    by_cases h1 : k1 = k
    · subst h1
      by_cases h2 : k1 = k2 <;> simp [VertexMap.assign, VertexMap.find, h2]
    · by_cases h2 : k1 = k2
      · subst h2
        have : ¬ k = k1 := fun h => h1 h.symm
        simp [VertexMap.assign, VertexMap.find, h1, this]
      · simp [VertexMap.assign, VertexMap.find, h1, h2, ih]

theorem VertexMap.subscript_fst (m : VertexMap) (k : Vertex_index) :
    (VertexMap.subscript m k).1 = (VertexMap.find m k).getD 0 := by
  unfold VertexMap.subscript
  cases h : VertexMap.find m k <;> simp

theorem VertexMap.subscript_snd (m : VertexMap) (k k2 : Vertex_index) :
    (VertexMap.find (VertexMap.subscript m k).2 k2).getD 0 = (VertexMap.find m k2).getD 0 := by
  unfold VertexMap.subscript
  cases h : VertexMap.find m k with
  | some x => simp
  | none =>
    simp only [VertexMap.find_assign]
    by_cases hk : k = k2
    · subst hk
      simp [h]
    · simp [hk]

/-! ## The vertex loop -/

theorem vertexLoop_new_vertices {R : Type} (wrap : Surface_mesh R) (l : List Vertex_index) :
    ∀ s : VertexLoopState R, (l.foldl (vertexBody wrap) s).new_vertices
      = s.new_vertices ++ l.flatMap (coordinates wrap) := by
  induction l with
  | nil => intro s; simp
  | cons a t ih =>
    intro s
    simp [List.foldl_cons, ih, vertexBody, coordinates, List.flatMap_cons]

theorem vertexLoop_vertex_idx {R : Type} (wrap : Surface_mesh R) (l : List Vertex_index) :
    ∀ s : VertexLoopState R, (l.foldl (vertexBody wrap) s).vertex_idx = s.vertex_idx + l.length := by
  induction l with
  | nil => intro s; simp
  | cons a t ih =>
    intro s
    simp [List.foldl_cons, ih, vertexBody]
    omega

theorem vertexLoop_find_of_not_mem {R : Type} (wrap : Surface_mesh R) (l : List Vertex_index)
    (v : Vertex_index) (hv : v ∉ l) :
    ∀ s : VertexLoopState R, VertexMap.find (l.foldl (vertexBody wrap) s).vertex_map v
      = VertexMap.find s.vertex_map v := by
  induction l with
  | nil => intro s; simp
  | cons a t ih =>
    intro s
    have h1 : v ∉ t := fun h => hv (List.mem_cons_of_mem _ h)
    have h2 : ¬ a = v := fun h => hv (by simp [h])
    simp [List.foldl_cons, ih h1, vertexBody, VertexMap.find_assign, h2]

theorem vertexLoop_find_lt {R : Type} (wrap : Surface_mesh R) (l : List Vertex_index) :
    ∀ s : VertexLoopState R,
      (∀ v k, VertexMap.find s.vertex_map v = some k → k < s.vertex_idx) →
      ∀ v k, VertexMap.find (l.foldl (vertexBody wrap) s).vertex_map v = some k →
        k < s.vertex_idx + l.length := by
  induction l with
  | nil => intro s hs v k h; simpa using hs v k h
  | cons a t ih =>
    intro s hs v k h
    have hs2 : ∀ v k, VertexMap.find (vertexBody wrap s a).vertex_map v = some k →
        k < (vertexBody wrap s a).vertex_idx := by
      intro v k hk
      simp only [vertexBody, VertexMap.find_assign] at hk ⊢
      by_cases hav : a = v
      · simp [hav] at hk
        omega
      · simp [hav] at hk
        have := hs v k hk
        omega
    have := ih (vertexBody wrap s a) hs2 v k (by simpa [List.foldl_cons] using h)
    simp only [vertexBody] at this
    simp only [List.length_cons]
    omega

theorem vertexLoop_find_isSome_of_isSome {R : Type} (wrap : Surface_mesh R)
    (l : List Vertex_index) (v : Vertex_index) :
    ∀ s : VertexLoopState R, (VertexMap.find s.vertex_map v).isSome = true →
      (VertexMap.find (l.foldl (vertexBody wrap) s).vertex_map v).isSome = true := by
  induction l with
  | nil => intro s h; simpa using h
  | cons a t ih =>
    intro s h
    rw [List.foldl_cons]
    apply ih
    simp only [vertexBody, VertexMap.find_assign]
    by_cases hav : a = v <;> simp [hav, h]

theorem vertexLoop_find_isSome_of_mem {R : Type} (wrap : Surface_mesh R)
    (l : List Vertex_index) (v : Vertex_index) (hv : v ∈ l) :
    ∀ s : VertexLoopState R,
      (VertexMap.find (l.foldl (vertexBody wrap) s).vertex_map v).isSome = true := by
  induction l with
  | nil => simp at hv
  | cons a t ih =>
    intro s
    rw [List.foldl_cons]
    by_cases hav : a = v
    · apply vertexLoop_find_isSome_of_isSome
      simp [vertexBody, VertexMap.find_assign, hav]
    · have : v ∈ t := by
        rcases List.mem_cons.mp hv with h | h
        · exact absurd h.symm hav
        · exact h
      exact ih this _

theorem vertexLoop_find_of_nodup {R : Type} (wrap : Surface_mesh R) (l : List Vertex_index)
    (hl : l.Nodup) :
    ∀ (s : VertexLoopState R) (i : Nat) (v : Vertex_index), l[i]? = some v →
      VertexMap.find (l.foldl (vertexBody wrap) s).vertex_map v = some (s.vertex_idx + i) := by
  induction l with
  | nil => intro s i v h; simp at h
  | cons a t ih =>
    intro s i v h
    rw [List.foldl_cons]
    have hnd := List.nodup_cons.mp hl
    cases i with
    | zero =>
      simp at h
      subst h
      rw [vertexLoop_find_of_not_mem wrap t a hnd.1]
      simp [vertexBody, VertexMap.find_assign]
    | succ j =>
      simp at h
      rw [ih hnd.2 (vertexBody wrap s a) j v h]
      simp [vertexBody]
      omega

/-- Indexing into the concatenation of the coordinate triples. -/
theorem flatMap_coordinates_getElem? {R : Type} (wrap : Surface_mesh R) (l : List Vertex_index) :
    ∀ (i : Nat) (v : Vertex_index), l[i]? = some v →
      (l.flatMap (coordinates wrap))[3 * i]? = some (wrap.point v).x ∧
      (l.flatMap (coordinates wrap))[3 * i + 1]? = some (wrap.point v).y ∧
      (l.flatMap (coordinates wrap))[3 * i + 2]? = some (wrap.point v).z := by
  induction l with
  | nil => intro i v h; simp at h
  | cons a t ih =>
    intro i v h
    cases i with
    | zero =>
      simp at h
      subst h
      simp [List.flatMap_cons, coordinates]
    | succ j =>
      simp at h
      have hlen : (coordinates wrap a).length = 3 := rfl
      obtain ⟨h0, h1, h2⟩ := ih j v h
      rw [List.flatMap_cons]
      refine ⟨?_, ?_, ?_⟩
      · rw [List.getElem?_append_right (by rw [hlen]; omega), hlen, ← h0]
        congr 1
      · rw [List.getElem?_append_right (by rw [hlen]; omega), hlen, ← h1]
        congr 1
      · rw [List.getElem?_append_right (by rw [hlen]; omega), hlen, ← h2]
        congr 1

theorem length_flatMap_coordinates {R : Type} (wrap : Surface_mesh R) (l : List Vertex_index) :
    (l.flatMap (coordinates wrap)).length = 3 * l.length := by
  induction l with
  | nil => simp
  | cons a t ih =>
    simp [List.flatMap_cons, ih, coordinates]
    omega

theorem extractedVertices_eq {R : Type} (wrap : Surface_mesh R) :
    extractedVertices wrap = wrap.vertices.flatMap (coordinates wrap) := by
  simp [extractedVertices, extractVertices, vertexLoop_new_vertices]

/-! ## The face loop -/

theorem aroundLoop_spec (cycle : List Vertex_index) :
    ∀ (acc : List Nat) (m : VertexMap),
      (cycle.foldl aroundBody (acc, m)).1
          = acc ++ cycle.map (fun v => (VertexMap.find m v).getD 0) ∧
      ∀ v, (VertexMap.find (cycle.foldl aroundBody (acc, m)).2 v).getD 0
          = (VertexMap.find m v).getD 0 := by
  induction cycle with
  | nil => intro acc m; simp
  | cons a t ih =>
    intro acc m
    rw [List.foldl_cons]
    obtain ⟨h1, h2⟩ := ih (aroundBody (acc, m) a).1 (aroundBody (acc, m) a).2
    have hsnd : ∀ v, (VertexMap.find (aroundBody (acc, m) a).2 v).getD 0
        = (VertexMap.find m v).getD 0 := by
      intro v
      simp only [aroundBody]
      exact VertexMap.subscript_snd m a v
    constructor
    · rw [h1]
      simp only [aroundBody, VertexMap.subscript_fst, List.map_cons, List.append_assoc,
        List.singleton_append]
      congr 2
      apply List.map_congr_left
      intro v _
      have := hsnd v
      simp only [aroundBody] at this
      exact this
    · intro v
      rw [h2 v, hsnd v]

theorem list_eq_of_length_three (l : List Nat) (h : l.length = 3) :
    [l.getD 0 0, l.getD 1 0, l.getD 2 0] = l := by
  match l, h with
  | [a, b, c], _ => rfl

theorem faceBody_spec {R : Type} (wrap : Surface_mesh R) (s : FaceLoopState) (f : Face_index) :
    (faceBody wrap s f).new_indices
        = s.new_indices ++
          (if (wrap.vertices_around_face f).length = 3 then
            (wrap.vertices_around_face f).map (fun v => (VertexMap.find s.vertex_map v).getD 0)
          else []) ∧
    (faceBody wrap s f).cerr
        = s.cerr ++
          (if (wrap.vertices_around_face f).length = 3 then []
          else [facesSizeLine (wrap.vertices_around_face f).length]) ∧
    ∀ v, (VertexMap.find (faceBody wrap s f).vertex_map v).getD 0
        = (VertexMap.find s.vertex_map v).getD 0 := by
  obtain ⟨h1, h2⟩ := aroundLoop_spec (wrap.vertices_around_face f) [] s.vertex_map
  simp only [List.nil_append] at h1
  have hlen : ((wrap.vertices_around_face f).foldl aroundBody ([], s.vertex_map)).1.length
      = (wrap.vertices_around_face f).length := by
    rw [h1, List.length_map]
  unfold faceBody
  by_cases h3 : (wrap.vertices_around_face f).length = 3
  · have h3b : ((wrap.vertices_around_face f).foldl aroundBody ([], s.vertex_map)).1.length = 3 := by
      rw [hlen, h3]
    simp only [h3b, h3, if_true]
    refine ⟨?_, by simp, h2⟩
    rw [← h1, ← list_eq_of_length_three _ h3b]
    simp
  · have h3b : ¬ ((wrap.vertices_around_face f).foldl aroundBody ([], s.vertex_map)).1.length = 3 := by
      rw [hlen]; exact h3
    simp only [h3b, h3, if_false]
    refine ⟨by simp, ?_, h2⟩
    rw [hlen]

theorem faceLoop_spec {R : Type} (wrap : Surface_mesh R) (l : List Face_index) :
    ∀ s : FaceLoopState,
      (l.foldl (faceBody wrap) s).new_indices
          = s.new_indices ++
            (l.filter (fun f => decide ((wrap.vertices_around_face f).length = 3))).flatMap
              (fun f => (wrap.vertices_around_face f).map
                (fun v => (VertexMap.find s.vertex_map v).getD 0)) ∧
      (l.foldl (faceBody wrap) s).cerr
          = s.cerr ++
            (l.filter (fun f => decide ((wrap.vertices_around_face f).length ≠ 3))).map
              (fun f => facesSizeLine (wrap.vertices_around_face f).length) ∧
      ∀ v, (VertexMap.find (l.foldl (faceBody wrap) s).vertex_map v).getD 0
          = (VertexMap.find s.vertex_map v).getD 0 := by
  induction l with
  | nil => intro s; simp
  | cons a t ih =>
    intro s
    rw [List.foldl_cons]
    obtain ⟨b1, b2, b3⟩ := faceBody_spec wrap s a
    obtain ⟨i1, i2, i3⟩ := ih (faceBody wrap s a)
    have hfun : (fun f => (wrap.vertices_around_face f).map
          (fun v => (VertexMap.find (faceBody wrap s a).vertex_map v).getD 0))
        = (fun f => (wrap.vertices_around_face f).map
          (fun v => (VertexMap.find s.vertex_map v).getD 0)) := by
      funext f
      apply List.map_congr_left
      intro v _
      exact b3 v
    refine ⟨?_, ?_, fun v => by rw [i3 v, b3 v]⟩
    · rw [i1, b1, hfun]
      by_cases h3 : (wrap.vertices_around_face a).length = 3
      · simp [h3, List.filter_cons, List.flatMap_cons]
      · simp [h3, List.filter_cons]
    · rw [i2, b2]
      by_cases h3 : (wrap.vertices_around_face a).length = 3
      · simp [h3, List.filter_cons]
      · simp [h3, List.filter_cons]

theorem extractedIndices_eq {R : Type} (wrap : Surface_mesh R) :
    extractedIndices wrap
      = (wrap.faces.filter (fun f => decide ((wrap.vertices_around_face f).length = 3))).flatMap
          (fun f => (wrap.vertices_around_face f).map (resolvedIndex wrap)) := by
  have h := (faceLoop_spec wrap wrap.faces ⟨[], extractedVertexMap wrap, []⟩).1
  simp only [List.nil_append] at h
  unfold extractedIndices extractFaces
  rw [h]
  congr 1
  funext f
  apply List.map_congr_left
  intro v _
  simp [resolvedIndex, VertexMap.subscript_fst]

theorem extractedDiagnostics_eq {R : Type} (wrap : Surface_mesh R) :
    extractedDiagnostics wrap
      = (wrap.faces.filter (fun f => decide ((wrap.vertices_around_face f).length ≠ 3))).map
          (fun f => facesSizeLine (wrap.vertices_around_face f).length) := by
  have h := (faceLoop_spec wrap wrap.faces ⟨[], extractedVertexMap wrap, []⟩).2.1
  simp only [List.nil_append] at h
  unfold extractedDiagnostics extractFaces
  rw [h]

/-! ## Heap facts -/

theorem overwrite_replicate {α : Type} (src : List α) :
    overwrite (List.replicate src.length none) src = src.map some := by
  simp [overwrite]

theorem copyDoubles_fresh {R : Type} (blocks : List (Block R)) (rel : List Ptr) (src : List R) :
    Heap.copyDoubles
        ⟨blocks ++ [⟨Cells.doubles (List.replicate src.length none), true⟩], rel⟩ src
        (blocks.length + 1)
      = some ⟨blocks ++ [⟨Cells.doubles (src.map some), true⟩], rel⟩ := by
  simp [Heap.copyDoubles, overwrite]

theorem copySizes_fresh {R : Type} (blocks : List (Block R)) (rel : List Ptr) (src : List Nat) :
    Heap.copySizes
        ⟨blocks ++ [⟨Cells.sizes (List.replicate src.length none), true⟩], rel⟩ src
        (blocks.length + 1)
      = some ⟨blocks ++ [⟨Cells.sizes (src.map some), true⟩], rel⟩ := by
  simp [Heap.copySizes, overwrite]

/-- The heap and mesh after lines 97-108 when both allocations succeed. -/
theorem swapBuffers_eq {R : Type} (okV okI : Bool) (h h1 h2 : Heap R) (mesh : TriMesh)
    (new_vertices : List R) (new_indices : List Nat) (cerr : List String)
    (hd1 : h.deleteArr mesh.vertices.arr = some h1)
    (hd2 : h1.deleteArr mesh.indices.arr = some h2) :
    swapBuffers okV okI h mesh new_vertices new_indices cerr
      = if okV = true then
          if okI = true then
            Outcome.returned
              ⟨h2.blocks ++ [⟨Cells.doubles (new_vertices.map some), true⟩]
                  ++ [⟨Cells.sizes (new_indices.map some), true⟩], h2.released⟩
              ⟨⟨h2.blocks.length + 1, new_vertices.length⟩,
               ⟨h2.blocks.length + 2, new_indices.length⟩⟩ cerr
          else
            Outcome.threw
              ⟨h2.blocks ++ [⟨Cells.doubles (new_vertices.map some), true⟩], h2.released⟩
              ⟨⟨h2.blocks.length + 1, new_vertices.length⟩,
               ⟨mesh.indices.arr, new_indices.length⟩⟩ cerr
        else
          Outcome.threw h2 ⟨⟨mesh.vertices.arr, new_vertices.length⟩, mesh.indices⟩ cerr := by
  unfold swapBuffers
  rw [hd1]
  simp only [hd2]
  cases okV with
  | false => simp [Heap.newDoubles]
  | true =>
    simp only [Heap.newDoubles, if_true, copyDoubles_fresh]
    cases okI with
    | false => simp [Heap.newSizes]
    | true =>
      simp only [Heap.newSizes, if_true]
      have := copySizes_fresh
        (h2.blocks ++ [⟨Cells.doubles (new_vertices.map some), true⟩]) h2.released new_indices
      simp only [List.length_append, List.length_singleton] at this
      simp only [List.length_append, List.length_singleton, this]

theorem readAll_spec {α : Type} (read : Nat → Option α) :
    ∀ (n : Nat) (l : List α), readAll read n = some l →
      l.length = n ∧ ∀ k, k < n → read k = l[k]? := by
  intro n
  induction n with
  | zero =>
    intro l h
    simp [readAll] at h
    subst h
    simp
  | succ n ih =>
    intro l h
    simp only [readAll] at h
    cases hl : readAll read n with
    | none => simp [hl] at h
    | some l0 =>
      cases hx : read n with
      | none => simp [hl, hx] at h
      | some x =>
        simp [hl, hx] at h
        subst h
        obtain ⟨len0, get0⟩ := ih l0 hl
        refine ⟨by simp [len0], ?_⟩
        intro k hk
        by_cases hkn : k < n
        · rw [get0 k hkn, List.getElem?_append_left (by omega)]
        · have : k = n := by omega
          subst this
          rw [hx, List.getElem?_append_right (by omega)]
          simp [len0]

theorem forRange_spec {β : Type} (body : Nat → List β → Option (List β)) (g : Nat → Option β)
    (hbody : ∀ j acc, body j acc = (g j).map fun b => acc ++ [b]) :
    ∀ (n i : Nat) (acc : List β), (∀ j, i ≤ j → j < i + n → (g j).isSome = true) →
      ∃ l, forRange body n i acc = some (acc ++ l) ∧ l.length = n ∧
        ∀ k, k < n → l[k]? = g (i + k) := by
  intro n
  induction n with
  | zero =>
    intro i acc _
    exact ⟨[], by simp [forRange], rfl, by intro k hk; omega⟩
  | succ n ih =>
    intro i acc hg
    have hgi := hg i (le_refl _) (by omega)
    obtain ⟨b, hb⟩ := Option.isSome_iff_exists.mp hgi
    obtain ⟨l, hl, hlen, hget⟩ := ih (i + 1) (acc ++ [b]) (fun j h1 h2 => hg j (by omega) (by omega))
    refine ⟨b :: l, ?_, by simp [hlen], ?_⟩
    · simp [forRange, hbody, hb, hl]
    · intro k hk
      cases k with
      | zero => simp [hb]
      | succ k =>
        have := hget k (by omega)
        simp only [List.getElem?_cons_succ, this]
        congr 1
        omega

/-! ## The soup builder -/

/-- A loop that reads consecutive triples through `read` and appends `mk x y z`. -/
theorem tripleLoop_spec {α β : Type} (read : Nat → Option α) (mk : α → α → α → β)
    (body : Nat → List β → Option (List β))
    (hbody : ∀ j acc, body j acc =
      (read (j * 3)).bind fun x => (read (j * 3 + 1)).bind fun y =>
        (read (j * 3 + 2)).bind fun z => some (acc ++ [mk x y z]))
    (size : Nat) (vs : List α) (hv : readAll read size = some vs) :
    ∃ l, forRange body (size / 3) 0 [] = some l ∧ l.length = vs.length / 3 ∧
      ∀ i, i < vs.length / 3 → ∃ x y z, vs[3 * i]? = some x ∧ vs[3 * i + 1]? = some y ∧
        vs[3 * i + 2]? = some z ∧ l[i]? = some (mk x y z) := by
  obtain ⟨hlen, hread⟩ := readAll_spec read size vs hv
  have hg : ∀ j, j < size / 3 → ∃ x y z, vs[3 * j]? = some x ∧ vs[3 * j + 1]? = some y ∧
      vs[3 * j + 2]? = some z ∧
      ((read (j * 3)).bind fun x => (read (j * 3 + 1)).bind fun y =>
        (read (j * 3 + 2)).bind fun z => some (mk x y z)) = some (mk x y z) := by
    intro j hj
    have hj3 : 3 * j + 2 < size := by omega
    have e0 : j * 3 = 3 * j := by omega
    have b0 : 3 * j < vs.length := by omega
    have b1 : 3 * j + 1 < vs.length := by omega
    have b2 : 3 * j + 2 < vs.length := by omega
    refine ⟨vs[3 * j], vs[3 * j + 1], vs[3 * j + 2], List.getElem?_eq_getElem b0,
      List.getElem?_eq_getElem b1, List.getElem?_eq_getElem b2, ?_⟩
    rw [e0, hread _ (by omega), hread _ (by omega), hread _ (by omega),
      List.getElem?_eq_getElem b0, List.getElem?_eq_getElem b1, List.getElem?_eq_getElem b2]
    rfl
  have hbody2 : ∀ j acc, body j acc =
      ((read (j * 3)).bind fun x => (read (j * 3 + 1)).bind fun y =>
        (read (j * 3 + 2)).bind fun z => some (mk x y z)).map fun b => acc ++ [b] := by
    intro j acc
    rw [hbody]
    cases read (j * 3) <;> cases read (j * 3 + 1) <;> cases read (j * 3 + 2) <;> rfl
  obtain ⟨l, hl, hllen, hlget⟩ := forRange_spec body _ hbody2 (size / 3) 0 []
    (fun j _ hj => by
      obtain ⟨x, y, z, _, _, _, h⟩ := hg j (by omega)
      rw [h]; rfl)
  refine ⟨l, by simpa using hl, by rw [hllen, hlen], ?_⟩
  intro i hi
  obtain ⟨x, y, z, h0, h1, h2, h⟩ := hg i (by omega)
  refine ⟨x, y, z, h0, h1, h2, ?_⟩
  rw [hlget i (by omega), Nat.zero_add, h]

theorem buildPoints_spec {R : Type} (h : Heap R) (mesh : TriMesh) (vs : List R)
    (hv : h.doublesOf mesh.vertices = some vs) :
    ∃ points, buildPoints h mesh = some points ∧ points.length = vs.length / 3 ∧
      ∀ i, i < vs.length / 3 → ∃ x y z, vs[3 * i]? = some x ∧ vs[3 * i + 1]? = some y ∧
        vs[3 * i + 2]? = some z ∧ points[i]? = some ⟨x, y, z⟩ :=
  tripleLoop_spec (h.readDouble mesh.vertices.arr) Point_3.mk (pointsBody h mesh)
    (fun _ _ => rfl) mesh.vertices.size vs hv

theorem buildTriangles_spec {R : Type} (h : Heap R) (mesh : TriMesh) (js : List Nat)
    (hv : h.sizesOf mesh.indices = some js) :
    ∃ triangles, buildTriangles h mesh = some triangles ∧ triangles.length = js.length / 3 ∧
      ∀ i, i < js.length / 3 → ∃ a b c, js[3 * i]? = some a ∧ js[3 * i + 1]? = some b ∧
        js[3 * i + 2]? = some c ∧ triangles[i]? = some (a, b, c) :=
  tripleLoop_spec (h.readSize mesh.indices.arr) (fun a b c => (a, b, c)) (trianglesBody h mesh)
    (fun _ _ => rfl) mesh.indices.size js hv

/-! ## Releasing the old arrays -/

theorem ownsDoubles_cases {R : Type} (h : Heap R) (p : Ptr) (hp : h.ownsDoubles p = true) :
    p = 0 ∨ (p ≠ 0 ∧ ∃ cs, h.blocks[p - 1]? = some ⟨Cells.doubles cs, true⟩) := by
  by_cases h0 : p = 0
  · exact Or.inl h0
  · right
    refine ⟨h0, ?_⟩
    simp only [Heap.ownsDoubles, Heap.block, h0, if_false, beq_iff_eq, Bool.false_or,
      Bool.or_eq_true, false_or] at hp
    cases hb : h.blocks[p - 1]? with
    | none => simp [hb] at hp
    | some b =>
      obtain ⟨cells, live⟩ := b
      cases cells with
      | doubles cs =>
        cases live with
        | true => exact ⟨cs, rfl⟩
        | false => simp [hb] at hp
      | sizes cs => simp [hb] at hp

theorem ownsSizes_cases {R : Type} (h : Heap R) (p : Ptr) (hp : h.ownsSizes p = true) :
    p = 0 ∨ (p ≠ 0 ∧ ∃ cs, h.blocks[p - 1]? = some ⟨Cells.sizes cs, true⟩) := by
  by_cases h0 : p = 0
  · exact Or.inl h0
  · right
    refine ⟨h0, ?_⟩
    simp only [Heap.ownsSizes, Heap.block, h0, if_false, beq_iff_eq, Bool.false_or,
      Bool.or_eq_true, false_or] at hp
    cases hb : h.blocks[p - 1]? with
    | none => simp [hb] at hp
    | some b =>
      obtain ⟨cells, live⟩ := b
      cases cells with
      | sizes cs =>
        cases live with
        | true => exact ⟨cs, rfl⟩
        | false => simp [hb] at hp
      | doubles cs => simp [hb] at hp

theorem deleteArr_of_live {R : Type} (h : Heap R) (p : Ptr) (cs : Cells R) (h0 : p ≠ 0)
    (hb : h.blocks[p - 1]? = some ⟨cs, true⟩) :
    h.deleteArr p = some ⟨h.blocks.set (p - 1) ⟨cs, false⟩, h.released ++ [p]⟩ := by
  simp [Heap.deleteArr, h0, hb]

/-- Lines 97-98 are defined on a valid mesh; they keep every address and add
one release event per non-null pointer. -/
theorem deletes_defined {R : Type} (h : Heap R) (p q : Ptr)
    (hp : h.ownsDoubles p = true) (hq : h.ownsSizes q = true) :
    ∃ h1 h2, h.deleteArr p = some h1 ∧ h1.deleteArr q = some h2 ∧
      h2.blocks.length = h.blocks.length ∧
      h2.released = h.released ++ releaseEvents p ++ releaseEvents q := by
  rcases ownsDoubles_cases h p hp with hp0 | ⟨hp0, cp, hbp⟩
  · subst hp0
    rcases ownsSizes_cases h q hq with hq0 | ⟨hq0, cq, hbq⟩
    · subst hq0
      exact ⟨h, h, by simp [Heap.deleteArr], by simp [Heap.deleteArr], rfl,
        by simp [releaseEvents]⟩
    · exact ⟨h, _, by simp [Heap.deleteArr], deleteArr_of_live h q _ hq0 hbq,
        by simp, by simp [releaseEvents, hq0]⟩
  · rcases ownsSizes_cases h q hq with hq0 | ⟨hq0, cq, hbq⟩
    · subst hq0
      exact ⟨_, _, deleteArr_of_live h p _ hp0 hbp, rfl,
        by simp, by simp [releaseEvents, hp0]⟩
    · have hne : p - 1 ≠ q - 1 := by
        intro he
        rw [he, hbq] at hbp
        simp at hbp
      refine ⟨_, _, deleteArr_of_live h p _ hp0 hbp,
        deleteArr_of_live _ q (Cells.sizes cq) hq0 ?_, by simp,
        by simp [releaseEvents, hp0, hq0]⟩
      simp only [List.getElem?_set, hne, if_false, hbq]

theorem readAll_of_getElem? {α : Type} (read : Nat → Option α) :
    ∀ (n : Nat) (l : List α), l.length = n → (∀ k, k < n → read k = l[k]?) →
      readAll read n = some l := by
  intro n
  induction n with
  | zero =>
    intro l hl _
    have : l = [] := List.length_eq_zero.mp hl
    subst this
    rfl
  | succ n ih =>
    intro l hl hread
    rcases List.eq_nil_or_concat l with hnil | ⟨l0, x, hx⟩
    · subst hnil
      simp at hl
    · rw [List.concat_eq_append] at hx
      subst hx
      have hl0 : l0.length = n := by simpa using hl
      have h1 : readAll read n = some l0 := by
        apply ih l0 hl0
        intro k hk
        rw [hread k (by omega), List.getElem?_append_left (by omega)]
      have h2 : read n = some x := by
        rw [hread n (by omega), List.getElem?_append_right (by omega)]
        simp [hl0]
      simp [readAll, h1, h2]

/-! ## The heap after a normal return -/

theorem installedHeap_block_vertices {R : Type} (B : List (Block R)) (rel : List Ptr)
    (nv : List R) (ni : List Nat) :
    (installedHeap B rel nv ni).block (B.length + 1)
      = some ⟨Cells.doubles (nv.map some), true⟩ := by
  simp only [installedHeap, Heap.block, Nat.add_one_ne_zero, if_false, Nat.add_sub_cancel]
  rw [List.append_assoc, List.getElem?_append_right (le_refl _)]
  simp

theorem installedHeap_block_indices {R : Type} (B : List (Block R)) (rel : List Ptr)
    (nv : List R) (ni : List Nat) :
    (installedHeap B rel nv ni).block (B.length + 2)
      = some ⟨Cells.sizes (ni.map some), true⟩ := by
  have e : B.length + 2 - 1 = B.length + 1 := by omega
  have hne : ¬ (B.length + 2 = 0) := by omega
  have hle : B.length ≤ B.length + 1 := by omega
  simp only [installedHeap, Heap.block, e]
  rw [if_neg hne, List.append_assoc, List.getElem?_append_right hle]
  simp

theorem installedHeap_readDouble {R : Type} (B : List (Block R)) (rel : List Ptr)
    (nv : List R) (ni : List Nat) (k : Nat) :
    (installedHeap B rel nv ni).readDouble (B.length + 1) k = nv[k]? := by
  unfold Heap.readDouble
  rw [installedHeap_block_vertices]
  simp only [List.getElem?_map]
  cases nv[k]? <;> rfl

theorem installedHeap_readSize {R : Type} (B : List (Block R)) (rel : List Ptr)
    (nv : List R) (ni : List Nat) (k : Nat) :
    (installedHeap B rel nv ni).readSize (B.length + 2) k = ni[k]? := by
  unfold Heap.readSize
  rw [installedHeap_block_indices]
  simp only [List.getElem?_map]
  cases ni[k]? <;> rfl

/-- Every way the function can return normally. -/
theorem returned_inv {R : Type} (alpha_wrap_3 : WrapAlgorithm R) (okV okI : Bool)
    (h : Heap R) (mesh : TriMesh) (alpha offset : R) (h1 : Heap R) (mesh1 : TriMesh)
    (cerr : List String)
    (hret : alphaWrapTriMesh alpha_wrap_3 okV okI h mesh alpha offset
      = Outcome.returned h1 mesh1 cerr) :
    ∃ points triangles wrap ha hb,
      buildPoints h mesh = some points ∧ buildTriangles h mesh = some triangles ∧
      alpha_wrap_3 points triangles alpha offset = some wrap ∧
      h.deleteArr mesh.vertices.arr = some ha ∧ ha.deleteArr mesh.indices.arr = some hb ∧
      okV = true ∧ okI = true ∧
      h1 = installedHeap hb.blocks hb.released (extractedVertices wrap) (extractedIndices wrap) ∧
      mesh1 = ⟨⟨hb.blocks.length + 1, (extractedVertices wrap).length⟩,
               ⟨hb.blocks.length + 2, (extractedIndices wrap).length⟩⟩ ∧
      cerr = extractedDiagnostics wrap := by
  unfold alphaWrapTriMesh at hret
  cases hp : buildPoints h mesh with
  | none => simp [hp] at hret
  | some points =>
    cases ht : buildTriangles h mesh with
    | none => simp [hp, ht] at hret
    | some triangles =>
      cases hw : alpha_wrap_3 points triangles alpha offset with
      | none => simp [hp, ht, hw] at hret
      | some wrap =>
        simp only [hp, ht, hw] at hret
        cases hd1 : h.deleteArr mesh.vertices.arr with
        | none => simp [swapBuffers, hd1] at hret
        | some ha =>
          cases hd2 : ha.deleteArr mesh.indices.arr with
          | none => simp [swapBuffers, hd1, hd2] at hret
          | some hb =>
            rw [swapBuffers_eq okV okI h ha hb mesh _ _ _ hd1 hd2] at hret
            cases okV with
            | false => simp at hret
            | true =>
              cases okI with
              | false => simp at hret
              | true =>
                simp only [if_true, Outcome.returned.injEq] at hret
                obtain ⟨e1, e2, e3⟩ := hret
                exact ⟨points, triangles, wrap, ha, hb, rfl, rfl, hw, rfl, hd2, rfl, rfl,
                  e1.symm, e2.symm, e3.symm⟩

/-- On a valid mesh, with the algorithm returning `wrap`, the outcome is
determined by the two allocation results. -/
theorem alphaWrapTriMesh_eq {R : Type} (alpha_wrap_3 : WrapAlgorithm R) (okV okI : Bool)
    (h : Heap R) (mesh : TriMesh) (alpha offset : R)
    (points : List (Point_3 R)) (triangles : List (Nat × Nat × Nat)) (wrap : Surface_mesh R)
    (hvalid : ValidMesh h mesh)
    (hp : buildPoints h mesh = some points) (ht : buildTriangles h mesh = some triangles)
    (hw : alpha_wrap_3 points triangles alpha offset = some wrap) :
    ∃ ha hb, h.deleteArr mesh.vertices.arr = some ha ∧ ha.deleteArr mesh.indices.arr = some hb ∧
      hb.blocks.length = h.blocks.length ∧
      hb.released = h.released ++ releaseEvents mesh.vertices.arr
        ++ releaseEvents mesh.indices.arr ∧
      alphaWrapTriMesh alpha_wrap_3 okV okI h mesh alpha offset
        = if okV = true then
            if okI = true then
              Outcome.returned
                (installedHeap hb.blocks hb.released (extractedVertices wrap)
                  (extractedIndices wrap))
                ⟨⟨hb.blocks.length + 1, (extractedVertices wrap).length⟩,
                 ⟨hb.blocks.length + 2, (extractedIndices wrap).length⟩⟩
                (extractedDiagnostics wrap)
            else
              Outcome.threw
                ⟨hb.blocks ++ [⟨Cells.doubles ((extractedVertices wrap).map some), true⟩],
                  hb.released⟩
                ⟨⟨hb.blocks.length + 1, (extractedVertices wrap).length⟩,
                 ⟨mesh.indices.arr, (extractedIndices wrap).length⟩⟩
                (extractedDiagnostics wrap)
          else
            Outcome.threw hb
              ⟨⟨mesh.vertices.arr, (extractedVertices wrap).length⟩, mesh.indices⟩
              (extractedDiagnostics wrap) := by
  obtain ⟨ha, hb, hd1, hd2, hlen, hrel⟩ :=
    deletes_defined h mesh.vertices.arr mesh.indices.arr hvalid.2.2.1 hvalid.2.2.2
  refine ⟨ha, hb, hd1, hd2, hlen, hrel, ?_⟩
  unfold alphaWrapTriMesh
  simp only [hp, ht, hw]
  rw [swapBuffers_eq okV okI h ha hb mesh _ _ _ hd1 hd2]
  rfl

theorem buildSoup_defined {R : Type} (h : Heap R) (mesh : TriMesh) (hvalid : ValidMesh h mesh) :
    ∃ points triangles, buildPoints h mesh = some points ∧
      buildTriangles h mesh = some triangles := by
  obtain ⟨vs, hvs⟩ := Option.isSome_iff_exists.mp hvalid.1
  obtain ⟨js, hjs⟩ := Option.isSome_iff_exists.mp hvalid.2.1
  obtain ⟨points, hp, _⟩ := buildPoints_spec h mesh vs hvs
  obtain ⟨triangles, ht, _⟩ := buildTriangles_spec h mesh js hjs
  exact ⟨points, triangles, hp, ht⟩

/-! ## Facts about the extracted buffers -/

theorem deleteArr_length {R : Type} (h h1 : Heap R) (p : Ptr) (hd : h.deleteArr p = some h1) :
    h1.blocks.length = h.blocks.length := by
  unfold Heap.deleteArr at hd
  by_cases h0 : p = 0
  · simp [h0] at hd
    rw [← hd]
  · simp only [h0, if_false] at hd
    cases hb : h.blocks[p - 1]? with
    | none => simp [hb] at hd
    | some b =>
      obtain ⟨cs, live⟩ := b
      cases live with
      | false => simp [hb] at hd
      | true =>
        simp [hb] at hd
        rw [← hd]
        simp

theorem resolvedIndex_lt {R : Type} (wrap : Surface_mesh R) (v : Vertex_index)
    (hv : v ∈ wrap.vertices) : resolvedIndex wrap v < wrap.vertices.length := by
  have hsome := vertexLoop_find_isSome_of_mem wrap wrap.vertices v hv ⟨[], [], 0⟩
  obtain ⟨k, hk⟩ := Option.isSome_iff_exists.mp hsome
  have hlt := vertexLoop_find_lt wrap wrap.vertices ⟨[], [], 0⟩
    (by intro v k h; simp [VertexMap.find] at h) v k hk
  simp only [resolvedIndex, VertexMap.subscript_fst, extractedVertexMap, extractVertices, hk,
    Option.getD_some]
  simpa using hlt

theorem mem_extractedIndices {R : Type} (wrap : Surface_mesh R) (j : Nat)
    (hj : j ∈ extractedIndices wrap) :
    ∃ f, f ∈ wrap.faces ∧ (wrap.vertices_around_face f).length = 3 ∧
      ∃ v, v ∈ wrap.vertices_around_face f ∧ j = resolvedIndex wrap v := by
  rw [extractedIndices_eq] at hj
  simp only [List.mem_flatMap, List.mem_filter, decide_eq_true_eq, List.mem_map] at hj
  obtain ⟨f, ⟨hf, h3⟩, v, hv, e⟩ := hj
  exact ⟨f, hf, h3, v, hv, e.symm⟩

theorem length_triangles_flatMap {β : Type} (len : Face_index → List β) (l : List Face_index)
    (hl : ∀ f, f ∈ l → (len f).length = 3) : (l.flatMap len).length = 3 * l.length := by
  induction l with
  | nil => simp
  | cons a t ih =>
    have h1 := hl a (List.mem_cons_self _ _)
    have h2 := ih (fun f hf => hl f (List.mem_cons_of_mem _ hf))
    simp only [List.flatMap_cons, List.length_append, List.length_cons, h1, h2]
    omega

theorem length_extractedIndices {R : Type} (wrap : Surface_mesh R) :
    (extractedIndices wrap).length
      = 3 * (wrap.faces.filter
          (fun f => decide ((wrap.vertices_around_face f).length = 3))).length := by
  rw [extractedIndices_eq]
  apply length_triangles_flatMap
  intro f hf
  simp only [List.mem_filter, decide_eq_true_eq] at hf
  simp [hf.2]

theorem length_extractedVertices {R : Type} (wrap : Surface_mesh R) :
    (extractedVertices wrap).length = 3 * wrap.vertices.length := by
  rw [extractedVertices_eq, length_flatMap_coordinates]

/-! ## Claims about the output mesh -/

/-- Claim C1: for a valid input mesh buffer and a surface returned by the
wrapping algorithm whose faces reference only vertices the surface exposes, the
call returns, and every value stored in the output `mesh.indices` is strictly
less than `mesh.vertices.size / 3`. -/
theorem output_indices_in_range {R : Type} (alpha_wrap_3 : WrapAlgorithm R)
    (h : Heap R) (mesh : TriMesh) (alpha offset : R)
    (points : List (Point_3 R)) (triangles : List (Nat × Nat × Nat)) (wrap : Surface_mesh R)
    (hvalid : ValidMesh h mesh)
    (hp : buildPoints h mesh = some points) (ht : buildTriangles h mesh = some triangles)
    (hw : alpha_wrap_3 points triangles alpha offset = some wrap)
    (hexposed : ∀ f, f ∈ wrap.faces → ∀ v, v ∈ wrap.vertices_around_face f → v ∈ wrap.vertices) :
    ∃ h1 mesh1 cerr,
      alphaWrapTriMesh alpha_wrap_3 true true h mesh alpha offset
        = Outcome.returned h1 mesh1 cerr ∧
      ∀ k, k < mesh1.indices.size →
        ∃ j, h1.readSize mesh1.indices.arr k = some j ∧ j < mesh1.vertices.size / 3 := by
  obtain ⟨ha, hb, _, _, _, _, heq⟩ :=
    alphaWrapTriMesh_eq alpha_wrap_3 true true h mesh alpha offset points triangles wrap
      hvalid hp ht hw
  refine ⟨_, _, _, heq, ?_⟩
  intro k hk
  simp only at hk
  refine ⟨(extractedIndices wrap)[k], ?_, ?_⟩
  · simp only [installedHeap_readSize]
    exact List.getElem?_eq_getElem hk
  · obtain ⟨f, hf, _, v, hv, e⟩ :=
      mem_extractedIndices wrap _ (List.getElem_mem hk)
    have := resolvedIndex_lt wrap v (hexposed f hf v hv)
    simp only [length_extractedVertices]
    omega

/-- Witness for claim C1 on the sample surface (one quad, two triangles). -/
theorem output_indices_in_range_witness :
    ∃ h1 mesh1 cerr,
      alphaWrapTriMesh sampleAlgorithm true true triangleHeap triangleMesh 1 1
        = Outcome.returned h1 mesh1 cerr ∧
      ∀ k, k < mesh1.indices.size →
        ∃ j, h1.readSize mesh1.indices.arr k = some j ∧ j < mesh1.vertices.size / 3 :=
  output_indices_in_range sampleAlgorithm triangleHeap triangleMesh 1 1
    [⟨0, 0, 0⟩, ⟨1, 0, 0⟩, ⟨0, 1, 0⟩] [(0, 1, 2)] quadAndTwoTriangles
    (by decide) (by decide) (by decide) rfl (by decide)

/-- Claim C2: the extracted index buffer is the concatenation, in face
iteration order, of the resolved vertex indices (in cyclic order) of exactly the
faces with three vertices; faces of any other size contribute nothing.  A
surface whose faces are one quad and two triangles, in any order, yields exactly
six values, those of the two triangles. -/
theorem index_buffer_is_triangle_faces {R : Type} (wrap : Surface_mesh R) :
    extractedIndices wrap
        = (wrap.faces.filter (fun f => decide ((wrap.vertices_around_face f).length = 3))).flatMap
            (fun f => (wrap.vertices_around_face f).map (resolvedIndex wrap)) ∧
    ((wrap.faces.map (fun f => (wrap.vertices_around_face f).length)).Perm [4, 3, 3] →
      (extractedIndices wrap).length = 6 ∧
      ∃ t1 t2,
        wrap.faces.filter (fun f => decide ((wrap.vertices_around_face f).length = 3)) = [t1, t2] ∧
        extractedIndices wrap
          = (wrap.vertices_around_face t1).map (resolvedIndex wrap)
            ++ (wrap.vertices_around_face t2).map (resolvedIndex wrap)) := by
  refine ⟨extractedIndices_eq wrap, ?_⟩
  intro hperm
  have hcount : (wrap.faces.filter
      (fun f => decide ((wrap.vertices_around_face f).length = 3))).length = 2 := by
    rw [← List.countP_eq_length_filter]
    have h1 : List.countP (fun f => decide ((wrap.vertices_around_face f).length = 3)) wrap.faces
        = List.countP (fun n => decide (n = 3))
            (wrap.faces.map (fun f => (wrap.vertices_around_face f).length)) := by
      rw [List.countP_map]
      rfl
    rw [h1, hperm.countP_eq]
    rfl
  refine ⟨by rw [length_extractedIndices, hcount], ?_⟩
  match hfl : wrap.faces.filter
      (fun f => decide ((wrap.vertices_around_face f).length = 3)), hcount with
  | [t1, t2], _ =>
    refine ⟨t1, t2, rfl, ?_⟩
    rw [extractedIndices_eq, hfl]
    simp

/-- Witness for claim C2: the sample surface with one quad and two triangles. -/
theorem index_buffer_is_triangle_faces_witness :
    (extractedIndices quadAndTwoTriangles).length = 6 ∧
    ∃ t1 t2,
      quadAndTwoTriangles.faces.filter
          (fun f => decide ((quadAndTwoTriangles.vertices_around_face f).length = 3)) = [t1, t2] ∧
      extractedIndices quadAndTwoTriangles
        = (quadAndTwoTriangles.vertices_around_face t1).map (resolvedIndex quadAndTwoTriangles)
          ++ (quadAndTwoTriangles.vertices_around_face t2).map
              (resolvedIndex quadAndTwoTriangles) :=
  (index_buffer_is_triangle_faces quadAndTwoTriangles).2 (List.Perm.refl _)

/-- Claim C3: the extracted vertex buffer has length `3 * V`; entries `3i`,
`3i+1`, `3i+2` are the x, y, z of the `i`-th vertex in iteration order; and the
buffer is the same whatever the faces of the surface are. -/
theorem vertex_buffer_holds_every_vertex {R : Type} (wrap : Surface_mesh R) :
    (extractedVertices wrap).length = 3 * wrap.vertices.length ∧
    (∀ i, i < wrap.vertices.length →
      ∃ v, wrap.vertices[i]? = some v ∧
        (extractedVertices wrap)[3 * i]? = some (wrap.point v).x ∧
        (extractedVertices wrap)[3 * i + 1]? = some (wrap.point v).y ∧
        (extractedVertices wrap)[3 * i + 2]? = some (wrap.point v).z) ∧
    (∀ (faces : List Face_index) (around : Face_index → List Vertex_index),
      extractedVertices
          { vertices := wrap.vertices, point := wrap.point, faces := faces,
            vertices_around_face := around }
        = extractedVertices wrap) := by
  refine ⟨length_extractedVertices wrap, ?_, ?_⟩
  · intro i hi
    refine ⟨wrap.vertices[i], List.getElem?_eq_getElem hi, ?_⟩
    rw [extractedVertices_eq]
    exact flatMap_coordinates_getElem? wrap wrap.vertices i _ (List.getElem?_eq_getElem hi)
  · intro faces around
    rw [extractedVertices_eq, extractedVertices_eq]
    rfl

/-- Witness for claim C3: vertex `9` of `quadOnly` lies on no face and vertex
`8` only on the dropped quad; both are in the vertex buffer. -/
theorem vertex_buffer_holds_every_vertex_witness :
    (∃ v, quadOnly.vertices[4]? = some v ∧
        (extractedVertices quadOnly)[3 * 4]? = some (quadOnly.point v).x ∧
        (extractedVertices quadOnly)[3 * 4 + 1]? = some (quadOnly.point v).y ∧
        (extractedVertices quadOnly)[3 * 4 + 2]? = some (quadOnly.point v).z) ∧
    (∃ v, quadOnly.vertices[3]? = some v ∧
        (extractedVertices quadOnly)[3 * 3]? = some (quadOnly.point v).x ∧
        (extractedVertices quadOnly)[3 * 3 + 1]? = some (quadOnly.point v).y ∧
        (extractedVertices quadOnly)[3 * 3 + 2]? = some (quadOnly.point v).z) :=
  ⟨(vertex_buffer_holds_every_vertex quadOnly).2.1 4 (by decide),
   (vertex_buffer_holds_every_vertex quadOnly).2.1 3 (by decide)⟩

/-- Claim C6: after a normal return the mesh holds exactly the extracted
buffers.  Each field points to a newly installed live array whose cells are the
extracted buffer, element for element, and whose length is the recorded size. -/
theorem returned_mesh_holds_extracted_buffers {R : Type} (alpha_wrap_3 : WrapAlgorithm R)
    (okV okI : Bool) (h : Heap R) (mesh : TriMesh) (alpha offset : R)
    (h1 : Heap R) (mesh1 : TriMesh) (cerr : List String)
    (hret : alphaWrapTriMesh alpha_wrap_3 okV okI h mesh alpha offset
      = Outcome.returned h1 mesh1 cerr) :
    ∃ points triangles wrap,
      buildPoints h mesh = some points ∧ buildTriangles h mesh = some triangles ∧
      alpha_wrap_3 points triangles alpha offset = some wrap ∧
      (∃ cs, h1.block mesh1.vertices.arr = some ⟨Cells.doubles cs, true⟩ ∧
        h.block mesh1.vertices.arr = none ∧
        cs = (extractedVertices wrap).map some ∧ mesh1.vertices.size = cs.length) ∧
      h1.doublesOf mesh1.vertices = some (extractedVertices wrap) ∧
      (∃ cs, h1.block mesh1.indices.arr = some ⟨Cells.sizes cs, true⟩ ∧
        h.block mesh1.indices.arr = none ∧
        cs = (extractedIndices wrap).map some ∧ mesh1.indices.size = cs.length) ∧
      h1.sizesOf mesh1.indices = some (extractedIndices wrap) := by
  obtain ⟨points, triangles, wrap, ha, hb, hp, ht, hw, hd1, hd2, _, _, e1, e2, _⟩ :=
    returned_inv alpha_wrap_3 okV okI h mesh alpha offset h1 mesh1 cerr hret
  have hlen : hb.blocks.length = h.blocks.length := by
    rw [deleteArr_length ha hb _ hd2, deleteArr_length h ha _ hd1]
  subst e1 e2
  refine ⟨points, triangles, wrap, hp, ht, hw, ?_, ?_, ?_, ?_⟩
  · refine ⟨_, installedHeap_block_vertices _ _ _ _, ?_, rfl, by simp⟩
    simp [Heap.block, hlen]
  · apply readAll_of_getElem? _ _ _ rfl
    intro k _
    exact installedHeap_readDouble _ _ _ _ k
  · refine ⟨_, installedHeap_block_indices _ _ _ _, ?_, rfl, by simp⟩
    simp [Heap.block, hlen]
  · apply readAll_of_getElem? _ _ _ rfl
    intro k _
    exact installedHeap_readSize _ _ _ _ k

/-- Witness for claim C6: the run on the one-triangle mesh with the sample surface. -/
theorem returned_mesh_holds_extracted_buffers_witness :
    ∃ points triangles wrap,
      buildPoints triangleHeap triangleMesh = some points ∧
      buildTriangles triangleHeap triangleMesh = some triangles ∧
      sampleAlgorithm points triangles 1 1 = some wrap ∧
      (∃ cs, triangleRunHeap.block triangleRunMesh.vertices.arr = some ⟨Cells.doubles cs, true⟩ ∧
        triangleHeap.block triangleRunMesh.vertices.arr = none ∧
        cs = (extractedVertices wrap).map some ∧ triangleRunMesh.vertices.size = cs.length) ∧
      triangleRunHeap.doublesOf triangleRunMesh.vertices = some (extractedVertices wrap) ∧
      (∃ cs, triangleRunHeap.block triangleRunMesh.indices.arr = some ⟨Cells.sizes cs, true⟩ ∧
        triangleHeap.block triangleRunMesh.indices.arr = none ∧
        cs = (extractedIndices wrap).map some ∧ triangleRunMesh.indices.size = cs.length) ∧
      triangleRunHeap.sizesOf triangleRunMesh.indices = some (extractedIndices wrap) :=
  returned_mesh_holds_extracted_buffers sampleAlgorithm true true triangleHeap triangleMesh 1 1
    triangleRunHeap triangleRunMesh ["faces size: 4\n"] (by rfl)

/-- Claim C7: the soup builder yields `len(vertices)/3` points and
`len(indices)/3` triangles, the `i`-th built from the `i`-th consecutive triple of
the buffer; index values are copied as they are, whatever their magnitude. -/
theorem soup_builder_contract {R : Type} (h : Heap R) (mesh : TriMesh)
    (vs : List R) (js : List Nat)
    (hvs : h.doublesOf mesh.vertices = some vs) (hjs : h.sizesOf mesh.indices = some js) :
    ∃ points triangles,
      buildPoints h mesh = some points ∧ buildTriangles h mesh = some triangles ∧
      points.length = vs.length / 3 ∧
      (∀ i, i < vs.length / 3 → ∃ x y z, vs[3 * i]? = some x ∧ vs[3 * i + 1]? = some y ∧
        vs[3 * i + 2]? = some z ∧ points[i]? = some ⟨x, y, z⟩) ∧
      triangles.length = js.length / 3 ∧
      (∀ i, i < js.length / 3 → ∃ a b c, js[3 * i]? = some a ∧ js[3 * i + 1]? = some b ∧
        js[3 * i + 2]? = some c ∧ triangles[i]? = some (a, b, c)) := by
  obtain ⟨points, hp, hplen, hpget⟩ := buildPoints_spec h mesh vs hvs
  obtain ⟨triangles, ht, htlen, htget⟩ := buildTriangles_spec h mesh js hjs
  exact ⟨points, triangles, hp, ht, hplen, hpget, htlen, htget⟩

/-- Witness for claim C7: a buffer with one vertex whose only triangle has the
out-of-range index `7`; the soup holds `(0, 0, 7)`. -/
theorem soup_builder_contract_witness :
    buildTriangles sampleHeap sampleMesh = some [(0, 0, 7)] ∧
    ∃ points triangles,
      buildPoints sampleHeap sampleMesh = some points ∧
      buildTriangles sampleHeap sampleMesh = some triangles ∧
      points.length = [(1 : Int), 2, 3, 4].length / 3 ∧
      (∀ i, i < [(1 : Int), 2, 3, 4].length / 3 → ∃ x y z, [(1 : Int), 2, 3, 4][3 * i]? = some x ∧
        [(1 : Int), 2, 3, 4][3 * i + 1]? = some y ∧
        [(1 : Int), 2, 3, 4][3 * i + 2]? = some z ∧ points[i]? = some ⟨x, y, z⟩) ∧
      triangles.length = [0, 0, 7].length / 3 ∧
      (∀ i, i < [0, 0, 7].length / 3 → ∃ a b c, [0, 0, 7][3 * i]? = some a ∧
        [0, 0, 7][3 * i + 1]? = some b ∧
        [0, 0, 7][3 * i + 2]? = some c ∧ triangles[i]? = some (a, b, c)) :=
  ⟨by decide, soup_builder_contract sampleHeap sampleMesh [1, 2, 3, 4] [0, 0, 7] (by decide)
    (by decide)⟩

/-- Claim C9: when the vertex iteration yields every vertex once, the map
built by the vertex loop sends the `i`-th vertex to `i`; its values are exactly
`0 .. V-1`, it is injective, and it equals the order-based assignment. -/
theorem vertex_map_is_visitation_order {R : Type} (wrap : Surface_mesh R)
    (hnodup : wrap.vertices.Nodup) :
    (∀ i v, wrap.vertices[i]? = some v →
      VertexMap.find (extractedVertexMap wrap) v = some i) ∧
    (∀ v k, VertexMap.find (extractedVertexMap wrap) v = some k → k < wrap.vertices.length) ∧
    (∀ k, k < wrap.vertices.length →
      ∃ v, VertexMap.find (extractedVertexMap wrap) v = some k) ∧
    (∀ v w k, VertexMap.find (extractedVertexMap wrap) v = some k →
      VertexMap.find (extractedVertexMap wrap) w = some k → v = w) ∧
    (∀ v, VertexMap.find (extractedVertexMap wrap) v = visitationIndex wrap v) := by
  have ha : ∀ i v, wrap.vertices[i]? = some v →
      VertexMap.find (extractedVertexMap wrap) v = some i := by
    intro i v hi
    have := vertexLoop_find_of_nodup wrap wrap.vertices hnodup ⟨[], [], 0⟩ i v hi
    simpa [extractedVertexMap, extractVertices] using this
  have hnone : ∀ v, v ∉ wrap.vertices → VertexMap.find (extractedVertexMap wrap) v = none := by
    intro v hv
    have := vertexLoop_find_of_not_mem wrap wrap.vertices v hv ⟨[], [], 0⟩
    simpa [extractedVertexMap, extractVertices, VertexMap.find] using this
  have hkey : ∀ v k, VertexMap.find (extractedVertexMap wrap) v = some k →
      wrap.vertices[k]? = some v := by
    intro v k hk
    by_cases hv : v ∈ wrap.vertices
    · obtain ⟨i, hi⟩ := List.mem_iff_getElem?.mp hv
      have := ha i v hi
      rw [hk] at this
      cases this
      exact hi
    · rw [hnone v hv] at hk
      cases hk
  refine ⟨ha, ?_, ?_, ?_, ?_⟩
  · intro v k hk
    have := hkey v k hk
    by_contra hlt
    rw [List.getElem?_eq_none (by omega)] at this
    cases this
  · intro k hk
    exact ⟨wrap.vertices[k], ha k _ (List.getElem?_eq_getElem hk)⟩
  · intro v w k hv hw
    have h1 := hkey v k hv
    have h2 := hkey w k hw
    rw [h1] at h2
    cases h2
    rfl
  · intro v
    unfold visitationIndex
    by_cases hv : v ∈ wrap.vertices
    · rw [if_pos hv]
      exact ha _ v (List.getElem?_indexOf hv)
    · rw [if_neg hv]
      exact hnone v hv

/-- Witness for claim C9 on the sample surface. -/
theorem vertex_map_is_visitation_order_witness :
    (∀ i v, quadAndTwoTriangles.vertices[i]? = some v →
      VertexMap.find (extractedVertexMap quadAndTwoTriangles) v = some i) ∧
    (∀ v k, VertexMap.find (extractedVertexMap quadAndTwoTriangles) v = some k →
      k < quadAndTwoTriangles.vertices.length) ∧
    (∀ k, k < quadAndTwoTriangles.vertices.length →
      ∃ v, VertexMap.find (extractedVertexMap quadAndTwoTriangles) v = some k) ∧
    (∀ v w k, VertexMap.find (extractedVertexMap quadAndTwoTriangles) v = some k →
      VertexMap.find (extractedVertexMap quadAndTwoTriangles) w = some k → v = w) ∧
    (∀ v, VertexMap.find (extractedVertexMap quadAndTwoTriangles) v
      = visitationIndex quadAndTwoTriangles v) :=
  vertex_map_is_visitation_order quadAndTwoTriangles (by decide)

/-- Claim C10: whenever the call returns, for any input mesh and any
surface, the output `vertices.size` and `indices.size` are multiples of 3; and on
a valid mesh with both allocations succeeding the call does return. -/
theorem output_sizes_multiple_of_three {R : Type} (alpha_wrap_3 : WrapAlgorithm R)
    (h : Heap R) (mesh : TriMesh) (alpha offset : R) :
    (∀ (okV okI : Bool) (h1 : Heap R) (mesh1 : TriMesh) (cerr : List String),
      alphaWrapTriMesh alpha_wrap_3 okV okI h mesh alpha offset
          = Outcome.returned h1 mesh1 cerr →
        mesh1.vertices.size % 3 = 0 ∧ mesh1.indices.size % 3 = 0) ∧
    (∀ (points : List (Point_3 R)) (triangles : List (Nat × Nat × Nat)) (wrap : Surface_mesh R),
      ValidMesh h mesh → buildPoints h mesh = some points →
      buildTriangles h mesh = some triangles →
      alpha_wrap_3 points triangles alpha offset = some wrap →
      ∃ h1 mesh1 cerr,
        alphaWrapTriMesh alpha_wrap_3 true true h mesh alpha offset
          = Outcome.returned h1 mesh1 cerr ∧
        mesh1.vertices.size = 3 * wrap.vertices.length ∧
        mesh1.indices.size = 3 * (wrap.faces.filter
          (fun f => decide ((wrap.vertices_around_face f).length = 3))).length) := by
  constructor
  · intro okV okI h1 mesh1 cerr hret
    obtain ⟨points, triangles, wrap, ha, hb, _, _, _, _, _, _, _, _, e2, _⟩ :=
      returned_inv alpha_wrap_3 okV okI h mesh alpha offset h1 mesh1 cerr hret
    subst e2
    simp only [length_extractedVertices, length_extractedIndices]
    omega
  · intro points triangles wrap hvalid hp ht hw
    obtain ⟨ha, hb, _, _, _, _, heq⟩ :=
      alphaWrapTriMesh_eq alpha_wrap_3 true true h mesh alpha offset points triangles wrap
        hvalid hp ht hw
    exact ⟨_, _, _, heq, length_extractedVertices wrap, length_extractedIndices wrap⟩

/-- Witness for claim C10: an input whose vertex buffer has four values and a
surface with a quad face; the output sizes are 12 and 6. -/
theorem output_sizes_multiple_of_three_witness :
    (sampleRunMesh.vertices.size % 3 = 0 ∧ sampleRunMesh.indices.size % 3 = 0) ∧
    ∃ h1 mesh1 cerr,
      alphaWrapTriMesh sampleAlgorithm true true sampleHeap sampleMesh 1 1
        = Outcome.returned h1 mesh1 cerr ∧
      mesh1.vertices.size = 3 * quadAndTwoTriangles.vertices.length ∧
      mesh1.indices.size = 3 * (quadAndTwoTriangles.faces.filter
        (fun f => decide ((quadAndTwoTriangles.vertices_around_face f).length = 3))).length :=
  ⟨(output_sizes_multiple_of_three sampleAlgorithm sampleHeap sampleMesh 1 1).1 true true
      sampleRunHeap sampleRunMesh ["faces size: 4\n"] (by rfl),
   (output_sizes_multiple_of_three sampleAlgorithm sampleHeap sampleMesh 1 1).2
      [⟨1, 2, 3⟩] [(0, 0, 7)] quadAndTwoTriangles (by decide) (by decide) (by decide) rfl⟩

/-! ## The transition system -/

theorem step_of_final {R : Type} (alpha_wrap_3 : WrapAlgorithm R) (okV okI : Bool)
    (alpha offset : R) (c : Config R) (hf : c.phase.final = true) :
    step alpha_wrap_3 okV okI alpha offset c = c := by
  unfold step
  cases hph : c.phase <;> simp [hph, Phase.final] at hf ⊢

theorem run_of_final {R : Type} (alpha_wrap_3 : WrapAlgorithm R) (okV okI : Bool)
    (alpha offset : R) (n : Nat) (c : Config R) (hf : c.phase.final = true) :
    run alpha_wrap_3 okV okI alpha offset n c = c := by
  induction n with
  | zero => rfl
  | succ n ih => rw [run, step_of_final _ _ _ _ _ c hf, ih]

theorem run_add {R : Type} (alpha_wrap_3 : WrapAlgorithm R) (okV okI : Bool)
    (alpha offset : R) (a b : Nat) :
    ∀ c : Config R, run alpha_wrap_3 okV okI alpha offset (a + b) c
      = run alpha_wrap_3 okV okI alpha offset b (run alpha_wrap_3 okV okI alpha offset a c) := by
  induction a with
  | zero => intro c; simp [run]
  | succ a ih =>
    intro c
    rw [Nat.succ_add, run, run, ih]

theorem step_untouched {R : Type} (alpha_wrap_3 : WrapAlgorithm R) (okV okI : Bool)
    (alpha offset : R) (h : Heap R) (mesh : TriMesh) (c : Config R)
    (hc : c.phase.beforeSwap = true → c.heap = h ∧ c.mesh = mesh)
    (hs : (step alpha_wrap_3 okV okI alpha offset c).phase.beforeSwap = true) :
    (step alpha_wrap_3 okV okI alpha offset c).heap = h ∧
    (step alpha_wrap_3 okV okI alpha offset c).mesh = mesh := by
  unfold step at hs ⊢
  cases hph : c.phase <;> simp only [hph] at hs ⊢ <;>
    simp only [hph, Phase.beforeSwap, true_implies] at hc <;>
    (try split at hs) <;> (try split at hs) <;>
    simp_all [Phase.beforeSwap] <;>
    (split <;> first | omega | rfl | simp_all)

theorem run_untouched {R : Type} (alpha_wrap_3 : WrapAlgorithm R) (okV okI : Bool)
    (alpha offset : R) (h : Heap R) (mesh : TriMesh) (n : Nat) :
    ∀ c : Config R, (c.phase.beforeSwap = true → c.heap = h ∧ c.mesh = mesh) →
      (run alpha_wrap_3 okV okI alpha offset n c).phase.beforeSwap = true →
      (run alpha_wrap_3 okV okI alpha offset n c).heap = h ∧
      (run alpha_wrap_3 okV okI alpha offset n c).mesh = mesh := by
  induction n with
  | zero => intro c hc; exact hc
  | succ n ih =>
    intro c hc
    rw [run]
    exact ih _ (step_untouched alpha_wrap_3 okV okI alpha offset h mesh c hc)

theorem ends_of_final {R : Type} (alpha_wrap_3 : WrapAlgorithm R) (okV okI : Bool)
    (alpha offset : R) (c : Config R) (o : Outcome R) (hf : c.phase.final = true)
    (ho : c.outcome = some o) : Ends alpha_wrap_3 okV okI alpha offset c o :=
  ⟨0, fun m _ => by rw [run_of_final _ _ _ _ _ m c hf, ho]⟩

theorem ends_of_run {R : Type} (alpha_wrap_3 : WrapAlgorithm R) (okV okI : Bool)
    (alpha offset : R) (k : Nat) (c : Config R) (o : Outcome R)
    (he : Ends alpha_wrap_3 okV okI alpha offset (run alpha_wrap_3 okV okI alpha offset k c) o) :
    Ends alpha_wrap_3 okV okI alpha offset c o := by
  obtain ⟨n, hn⟩ := he
  refine ⟨k + n, fun m hm => ?_⟩
  have : m = k + (m - k) := by omega
  rw [this, run_add]
  exact hn _ (by omega)

theorem ends_of_undefined {R : Type} (alpha_wrap_3 : WrapAlgorithm R) (okV okI : Bool)
    (alpha offset : R) (c : Config R) (hph : c.phase = Phase.undefinedBehaviour) :
    Ends alpha_wrap_3 okV okI alpha offset c Outcome.undefined :=
  ends_of_final _ _ _ _ _ c _ (by simp [hph, Phase.final]) (by simp [Config.outcome, hph])

theorem run_pointsLoop {R : Type} (alpha_wrap_3 : WrapAlgorithm R) (okV okI : Bool)
    (alpha offset : R) (k : Nat) :
    ∀ (c : Config R) (i : Nat), c.phase = Phase.pointsLoop i → i + k = c.num_vertices →
      (∀ pts, forRange (pointsBody c.heap c.mesh) k i c.points = some pts →
        run alpha_wrap_3 okV okI alpha offset (k + 1) c
          = { c with points := pts, num_triangles := c.mesh.indices.size / 3,
                     phase := Phase.trianglesLoop 0 }) ∧
      (forRange (pointsBody c.heap c.mesh) k i c.points = none →
        (run alpha_wrap_3 okV okI alpha offset (k + 1) c).phase = Phase.undefinedBehaviour) := by
  induction k with
  | zero =>
    intro c i hph hi
    have hlt : ¬ i < c.num_vertices := by omega
    constructor
    · intro pts hpts
      simp only [forRange, Option.some.injEq] at hpts
      subst hpts
      simp [run, step, hph, hlt]
    · intro hnone
      simp [forRange] at hnone
  | succ k ih =>
    intro c i hph hi
    have hlt : i < c.num_vertices := by omega
    cases hb : pointsBody c.heap c.mesh i c.points with
    | none =>
      constructor
      · intro pts hpts
        simp [forRange, hb] at hpts
      · intro _
        have hs : step alpha_wrap_3 okV okI alpha offset c
            = { c with phase := Phase.undefinedBehaviour } := by
          simp [step, hph, hlt, hb]
        rw [run, hs, run_of_final _ _ _ _ _ _ _ (by simp [Phase.final])]
    | some pts1 =>
      have hs : step alpha_wrap_3 okV okI alpha offset c
          = { c with points := pts1, phase := Phase.pointsLoop (i + 1) } := by
        simp [step, hph, hlt, hb]
      obtain ⟨ih1, ih2⟩ := ih { c with points := pts1, phase := Phase.pointsLoop (i + 1) } (i + 1)
        rfl (by simp only; omega)
      constructor
      · intro pts hpts
        simp only [forRange, hb, Option.some_bind] at hpts
        rw [run, hs, ih1 pts hpts]
      · intro hnone
        simp only [forRange, hb, Option.some_bind] at hnone
        rw [run, hs]
        exact ih2 hnone

theorem run_trianglesLoop {R : Type} (alpha_wrap_3 : WrapAlgorithm R) (okV okI : Bool)
    (alpha offset : R) (k : Nat) :
    ∀ (c : Config R) (i : Nat), c.phase = Phase.trianglesLoop i → i + k = c.num_triangles →
      (∀ ts, forRange (trianglesBody c.heap c.mesh) k i c.triangles = some ts →
        run alpha_wrap_3 okV okI alpha offset (k + 1) c
          = { c with triangles := ts, phase := Phase.callWrap }) ∧
      (forRange (trianglesBody c.heap c.mesh) k i c.triangles = none →
        (run alpha_wrap_3 okV okI alpha offset (k + 1) c).phase = Phase.undefinedBehaviour) := by
  induction k with
  | zero =>
    intro c i hph hi
    have hlt : ¬ i < c.num_triangles := by omega
    constructor
    · intro ts hts
      simp only [forRange, Option.some.injEq] at hts
      subst hts
      simp [run, step, hph, hlt]
    · intro hnone
      simp [forRange] at hnone
  | succ k ih =>
    intro c i hph hi
    have hlt : i < c.num_triangles := by omega
    cases hb : trianglesBody c.heap c.mesh i c.triangles with
    | none =>
      constructor
      · intro ts hts
        simp [forRange, hb] at hts
      · intro _
        have hs : step alpha_wrap_3 okV okI alpha offset c
            = { c with phase := Phase.undefinedBehaviour } := by
          simp [step, hph, hlt, hb]
        rw [run, hs, run_of_final _ _ _ _ _ _ _ (by simp [Phase.final])]
    | some ts1 =>
      have hs : step alpha_wrap_3 okV okI alpha offset c
          = { c with triangles := ts1, phase := Phase.trianglesLoop (i + 1) } := by
        simp [step, hph, hlt, hb]
      obtain ⟨ih1, ih2⟩ :=
        ih { c with triangles := ts1, phase := Phase.trianglesLoop (i + 1) } (i + 1)
          rfl (by simp only; omega)
      constructor
      · intro ts hts
        simp only [forRange, hb, Option.some_bind] at hts
        rw [run, hs, ih1 ts hts]
      · intro hnone
        simp only [forRange, hb, Option.some_bind] at hnone
        rw [run, hs]
        exact ih2 hnone

theorem run_verticesLoop {R : Type} (alpha_wrap_3 : WrapAlgorithm R) (okV okI : Bool)
    (alpha offset : R) (w : Surface_mesh R) (rest : List Vertex_index) :
    ∀ (c : Config R), c.phase = Phase.verticesLoop rest → c.wrap = some w →
      run alpha_wrap_3 okV okI alpha offset (rest.length + 1) c
        = { c with
            new_vertices :=
              (rest.foldl (vertexBody w) ⟨c.new_vertices, c.vertex_map, c.vertex_idx⟩).new_vertices
            vertex_map :=
              (rest.foldl (vertexBody w) ⟨c.new_vertices, c.vertex_map, c.vertex_idx⟩).vertex_map
            vertex_idx :=
              (rest.foldl (vertexBody w) ⟨c.new_vertices, c.vertex_map, c.vertex_idx⟩).vertex_idx
            phase := Phase.facesLoop w.faces } := by
  induction rest with
  | nil =>
    intro c hph hw
    simp [run, step, hph, hw]
  | cons v rest ih =>
    intro c hph hw
    rw [List.length_cons, run]
    have hs : step alpha_wrap_3 okV okI alpha offset c
        = { c with
            new_vertices := (vertexBody w ⟨c.new_vertices, c.vertex_map, c.vertex_idx⟩ v).new_vertices
            vertex_map := (vertexBody w ⟨c.new_vertices, c.vertex_map, c.vertex_idx⟩ v).vertex_map
            vertex_idx := (vertexBody w ⟨c.new_vertices, c.vertex_map, c.vertex_idx⟩ v).vertex_idx
            phase := Phase.verticesLoop rest } := by
      simp [step, hph, hw]
    have key := ih (step alpha_wrap_3 okV okI alpha offset c) (by rw [hs])
      (by rw [hs]; exact hw)
    rw [key, hs]
    rfl

theorem run_facesLoop {R : Type} (alpha_wrap_3 : WrapAlgorithm R) (okV okI : Bool)
    (alpha offset : R) (w : Surface_mesh R) (rest : List Face_index) :
    ∀ (c : Config R), c.phase = Phase.facesLoop rest → c.wrap = some w →
      run alpha_wrap_3 okV okI alpha offset (rest.length + 1) c
        = { c with
            new_indices :=
              (rest.foldl (faceBody w) ⟨c.new_indices, c.vertex_map, c.cerr⟩).new_indices
            vertex_map :=
              (rest.foldl (faceBody w) ⟨c.new_indices, c.vertex_map, c.cerr⟩).vertex_map
            cerr := (rest.foldl (faceBody w) ⟨c.new_indices, c.vertex_map, c.cerr⟩).cerr
            phase := Phase.deleteVertices } := by
  induction rest with
  | nil =>
    intro c hph hw
    simp [run, step, hph, hw]
  | cons f rest ih =>
    intro c hph hw
    rw [List.length_cons, run]
    have hs : step alpha_wrap_3 okV okI alpha offset c
        = { c with
            new_indices := (faceBody w ⟨c.new_indices, c.vertex_map, c.cerr⟩ f).new_indices
            vertex_map := (faceBody w ⟨c.new_indices, c.vertex_map, c.cerr⟩ f).vertex_map
            cerr := (faceBody w ⟨c.new_indices, c.vertex_map, c.cerr⟩ f).cerr
            phase := Phase.facesLoop rest } := by
      simp [step, hph, hw]
    have key := ih (step alpha_wrap_3 okV okI alpha offset c) (by rw [hs])
      (by rw [hs]; exact hw)
    rw [key, hs]
    rfl

theorem run_swap {R : Type} (alpha_wrap_3 : WrapAlgorithm R) (okV okI : Bool)
    (alpha offset : R) (c : Config R) (hph : c.phase = Phase.deleteVertices) :
    (run alpha_wrap_3 okV okI alpha offset 8 c).phase.final = true ∧
    (run alpha_wrap_3 okV okI alpha offset 8 c).outcome
      = some (swapBuffers okV okI c.heap c.mesh c.new_vertices c.new_indices c.cerr) := by
  simp only [run, swapBuffers]
  cases h1 : c.heap.deleteArr c.mesh.vertices.arr with
  | none => simp [step, hph, h1, Phase.final, Config.outcome]
  | some ha =>
    cases h2 : ha.deleteArr c.mesh.indices.arr with
    | none => simp [step, hph, h1, h2, Phase.final, Config.outcome]
    | some hb =>
      cases okV with
      | false => simp [step, hph, h1, h2, Phase.final, Config.outcome, Heap.newDoubles]
      | true =>
        simp only [Heap.newDoubles, if_true]
        cases h3 : Heap.copyDoubles
            ⟨hb.blocks ++ [⟨Cells.doubles (List.replicate c.new_vertices.length none), true⟩],
              hb.released⟩ c.new_vertices (hb.blocks.length + 1) with
        | none => simp [step, hph, h1, h2, h3, Phase.final, Config.outcome, Heap.newDoubles]
        | some hc =>
          cases okI with
          | false =>
            simp [step, hph, h1, h2, h3, Phase.final, Config.outcome, Heap.newDoubles,
              Heap.newSizes]
          | true =>
            simp only [Heap.newSizes, if_true]
            cases h4 : Heap.copySizes
                ⟨hc.blocks ++ [⟨Cells.sizes (List.replicate c.new_indices.length none), true⟩],
                  hc.released⟩ c.new_indices (hc.blocks.length + 1) with
            | none =>
              simp [step, hph, h1, h2, h3, h4, Phase.final, Config.outcome, Heap.newDoubles,
                Heap.newSizes]
            | some hd =>
              simp [step, hph, h1, h2, h3, h4, Phase.final, Config.outcome, Heap.newDoubles,
                Heap.newSizes]

theorem run_to_callWrap {R : Type} (alpha_wrap_3 : WrapAlgorithm R) (okV okI : Bool)
    (alpha offset : R) (h : Heap R) (mesh : TriMesh)
    (points : List (Point_3 R)) (triangles : List (Nat × Nat × Nat))
    (hp : buildPoints h mesh = some points) (ht : buildTriangles h mesh = some triangles) :
    run alpha_wrap_3 okV okI alpha offset
        ((mesh.vertices.size / 3 + 1) + (mesh.indices.size / 3 + 1)) (Config.init h mesh)
      = { Config.init h mesh with
          points := points, triangles := triangles, num_triangles := mesh.indices.size / 3,
          phase := Phase.callWrap } := by
  have h1 := (run_pointsLoop alpha_wrap_3 okV okI alpha offset (mesh.vertices.size / 3)
    (Config.init h mesh) 0 rfl (by simp [Config.init])).1 points hp
  rw [run_add _ _ _ _ _ _ (mesh.indices.size / 3 + 1), h1]
  have h2 := (run_trianglesLoop alpha_wrap_3 okV okI alpha offset (mesh.indices.size / 3)
    { Config.init h mesh with
      points := points, num_triangles := (Config.init h mesh).mesh.indices.size / 3,
      phase := Phase.trianglesLoop 0 } 0 rfl (by simp [Config.init])).1 triangles ht
  rw [h2]
  rfl

theorem run_to_swap {R : Type} (alpha_wrap_3 : WrapAlgorithm R) (okV okI : Bool)
    (alpha offset : R) (h : Heap R) (mesh : TriMesh)
    (points : List (Point_3 R)) (triangles : List (Nat × Nat × Nat)) (wrap : Surface_mesh R)
    (hp : buildPoints h mesh = some points) (ht : buildTriangles h mesh = some triangles)
    (hw : alpha_wrap_3 points triangles alpha offset = some wrap) :
    run alpha_wrap_3 okV okI alpha offset
        (stepsToSwap mesh wrap.vertices.length wrap.faces.length) (Config.init h mesh)
      = Config.atSwap h mesh points triangles wrap := by
  unfold stepsToSwap
  rw [run_add _ _ _ _ _ _ (wrap.faces.length + 1), run_add _ _ _ _ _ _ (wrap.vertices.length + 1),
    run_add _ _ _ _ _ ((mesh.vertices.size / 3 + 1) + (mesh.indices.size / 3 + 1)) 1,
    run_to_callWrap alpha_wrap_3 okV okI alpha offset h mesh points triangles hp ht]
  have hcall : run alpha_wrap_3 okV okI alpha offset 1
      { Config.init h mesh with
        points := points, triangles := triangles, num_triangles := mesh.indices.size / 3,
        phase := Phase.callWrap }
      = { Config.init h mesh with
          points := points, triangles := triangles, num_triangles := mesh.indices.size / 3,
          wrap := some wrap, phase := Phase.verticesLoop wrap.vertices } := by
    simp [run, step, hw]
  rw [hcall, run_verticesLoop alpha_wrap_3 okV okI alpha offset wrap wrap.vertices _ rfl rfl,
    run_facesLoop alpha_wrap_3 okV okI alpha offset wrap wrap.faces _ rfl rfl]
  rfl

theorem run_agrees {R : Type} (alpha_wrap_3 : WrapAlgorithm R) (okV okI : Bool)
    (alpha offset : R) (h : Heap R) (mesh : TriMesh) :
    Ends alpha_wrap_3 okV okI alpha offset (Config.init h mesh)
      (alphaWrapTriMesh alpha_wrap_3 okV okI h mesh alpha offset) := by
  cases hp : buildPoints h mesh with
  | none =>
    have h1 := (run_pointsLoop alpha_wrap_3 okV okI alpha offset (mesh.vertices.size / 3)
      (Config.init h mesh) 0 rfl (by simp [Config.init])).2 hp
    have ho : alphaWrapTriMesh alpha_wrap_3 okV okI h mesh alpha offset = Outcome.undefined := by
      simp [alphaWrapTriMesh, hp]
    rw [ho]
    exact ends_of_run _ _ _ _ _ _ _ _ (ends_of_undefined _ _ _ _ _ _ h1)
  | some points =>
    have h1 := (run_pointsLoop alpha_wrap_3 okV okI alpha offset (mesh.vertices.size / 3)
      (Config.init h mesh) 0 rfl (by simp [Config.init])).1 points hp
    cases ht : buildTriangles h mesh with
    | none =>
      have h2 := (run_trianglesLoop alpha_wrap_3 okV okI alpha offset (mesh.indices.size / 3)
        { Config.init h mesh with
          points := points, num_triangles := (Config.init h mesh).mesh.indices.size / 3,
          phase := Phase.trianglesLoop 0 } 0 rfl (by simp [Config.init])).2 ht
      have ho : alphaWrapTriMesh alpha_wrap_3 okV okI h mesh alpha offset
          = Outcome.undefined := by
        simp [alphaWrapTriMesh, hp, ht]
      rw [ho]
      apply ends_of_run _ _ _ _ _ (mesh.vertices.size / 3 + 1)
      rw [h1]
      exact ends_of_run _ _ _ _ _ _ _ _ (ends_of_undefined _ _ _ _ _ _ h2)
    | some triangles =>
      cases hw : alpha_wrap_3 points triangles alpha offset with
      | none =>
        have ho : alphaWrapTriMesh alpha_wrap_3 okV okI h mesh alpha offset
            = Outcome.threw h mesh [] := by
          simp [alphaWrapTriMesh, hp, ht, hw]
        rw [ho]
        apply ends_of_run _ _ _ _ _
          ((mesh.vertices.size / 3 + 1) + (mesh.indices.size / 3 + 1) + 1)
        rw [run_add _ _ _ _ _ _ 1, run_to_callWrap alpha_wrap_3 okV okI alpha offset h mesh
          points triangles hp ht]
        apply ends_of_final
        · simp [run, step, hw, Phase.final]
        · simp [run, step, hw, Config.outcome, Config.init]
      | some wrap =>
        have ho : alphaWrapTriMesh alpha_wrap_3 okV okI h mesh alpha offset
            = swapBuffers okV okI h mesh (extractVertices wrap).new_vertices
                (extractFaces wrap (extractVertices wrap).vertex_map).new_indices
                (extractFaces wrap (extractVertices wrap).vertex_map).cerr := by
          simp [alphaWrapTriMesh, hp, ht, hw]
        rw [ho]
        apply ends_of_run _ _ _ _ _ (stepsToSwap mesh wrap.vertices.length wrap.faces.length)
        rw [run_to_swap alpha_wrap_3 okV okI alpha offset h mesh points triangles wrap hp ht hw]
        apply ends_of_run _ _ _ _ _ 8
        obtain ⟨hfin, hout⟩ := run_swap alpha_wrap_3 okV okI alpha offset
          (Config.atSwap h mesh points triangles wrap) rfl
        exact ends_of_final _ _ _ _ _ _ _ hfin hout

theorem step_stays_past_swap {R : Type} (alpha_wrap_3 : WrapAlgorithm R) (okV okI : Bool)
    (alpha offset : R) (c : Config R) (hc : c.phase.beforeSwap = false) :
    (step alpha_wrap_3 okV okI alpha offset c).phase.beforeSwap = false := by
  unfold step
  cases hph : c.phase <;> simp only [hph] at hc ⊢ <;> (try split) <;>
    simp_all [Phase.beforeSwap]

theorem run_stays_past_swap {R : Type} (alpha_wrap_3 : WrapAlgorithm R) (okV okI : Bool)
    (alpha offset : R) (n : Nat) :
    ∀ c : Config R, c.phase.beforeSwap = false →
      (run alpha_wrap_3 okV okI alpha offset n c).phase.beforeSwap = false := by
  induction n with
  | zero => intro c hc; exact hc
  | succ n ih =>
    intro c hc
    rw [run]
    exact ih _ (step_stays_past_swap alpha_wrap_3 okV okI alpha offset c hc)

theorem beforeSwap_of_later {R : Type} (alpha_wrap_3 : WrapAlgorithm R) (okV okI : Bool)
    (alpha offset : R) (c : Config R) (m n : Nat) (hmn : m ≤ n)
    (hn : (run alpha_wrap_3 okV okI alpha offset n c).phase.beforeSwap = true) :
    (run alpha_wrap_3 okV okI alpha offset m c).phase.beforeSwap = true := by
  cases hm : (run alpha_wrap_3 okV okI alpha offset m c).phase.beforeSwap with
  | true => rfl
  | false =>
    have e : n = m + (n - m) := by omega
    rw [e, run_add, run_stays_past_swap alpha_wrap_3 okV okI alpha offset (n - m) _ hm] at hn
    cases hn

/-- Claim C5: at every point of a run that lies in the soup build, the call of
the wrapping algorithm or the result extraction (up to just before line 97,
including an abnormal end of the wrapping call), the heap and the mesh are
exactly what they were on entry: nothing was written and nothing released.
When these steps complete, every point up to line 97 is such a point and the
extracted buffers are complete there.  The transition system ends with the
outcome of `alphaWrapTriMesh`. -/
theorem mesh_untouched_before_swap {R : Type} (alpha_wrap_3 : WrapAlgorithm R)
    (okV okI : Bool) (alpha offset : R) (h : Heap R) (mesh : TriMesh) :
    (∀ n, (run alpha_wrap_3 okV okI alpha offset n (Config.init h mesh)).phase.beforeSwap = true →
      (run alpha_wrap_3 okV okI alpha offset n (Config.init h mesh)).heap = h ∧
      (run alpha_wrap_3 okV okI alpha offset n (Config.init h mesh)).mesh = mesh) ∧
    (∀ (points : List (Point_3 R)) (triangles : List (Nat × Nat × Nat)) (wrap : Surface_mesh R),
      buildPoints h mesh = some points → buildTriangles h mesh = some triangles →
      alpha_wrap_3 points triangles alpha offset = some wrap →
      (∀ m, m ≤ stepsToSwap mesh wrap.vertices.length wrap.faces.length →
        (run alpha_wrap_3 okV okI alpha offset m (Config.init h mesh)).phase.beforeSwap = true) ∧
      (run alpha_wrap_3 okV okI alpha offset
          (stepsToSwap mesh wrap.vertices.length wrap.faces.length) (Config.init h mesh)).phase
        = Phase.deleteVertices ∧
      (run alpha_wrap_3 okV okI alpha offset
          (stepsToSwap mesh wrap.vertices.length wrap.faces.length)
          (Config.init h mesh)).new_vertices = extractedVertices wrap ∧
      (run alpha_wrap_3 okV okI alpha offset
          (stepsToSwap mesh wrap.vertices.length wrap.faces.length)
          (Config.init h mesh)).new_indices = extractedIndices wrap) ∧
    (∀ (points : List (Point_3 R)) (triangles : List (Nat × Nat × Nat)),
      buildPoints h mesh = some points → buildTriangles h mesh = some triangles →
      alpha_wrap_3 points triangles alpha offset = none →
      alphaWrapTriMesh alpha_wrap_3 okV okI h mesh alpha offset = Outcome.threw h mesh []) ∧
    Ends alpha_wrap_3 okV okI alpha offset (Config.init h mesh)
      (alphaWrapTriMesh alpha_wrap_3 okV okI h mesh alpha offset) := by
  refine ⟨?_, ?_, ?_, run_agrees alpha_wrap_3 okV okI alpha offset h mesh⟩
  · intro n hn
    exact run_untouched alpha_wrap_3 okV okI alpha offset h mesh n (Config.init h mesh)
      (fun _ => ⟨rfl, rfl⟩) hn
  · intro points triangles wrap hp ht hw
    have hrun := run_to_swap alpha_wrap_3 okV okI alpha offset h mesh points triangles wrap
      hp ht hw
    refine ⟨?_, by rw [hrun]; rfl, by rw [hrun]; rfl, by rw [hrun]; rfl⟩
    intro m hm
    apply beforeSwap_of_later alpha_wrap_3 okV okI alpha offset _ m _ hm
    rw [hrun]
    rfl
  · intro points triangles hp ht hw
    simp [alphaWrapTriMesh, hp, ht, hw]

/-- Witness for claim C5: the run on the one-triangle mesh, stopped in the
face loop (14 transitions) and just before line 97 (16 transitions). -/
theorem mesh_untouched_before_swap_witness :
    ((run sampleAlgorithm true true 1 1 14 (Config.init triangleHeap triangleMesh)).heap
        = triangleHeap ∧
      (run sampleAlgorithm true true 1 1 14 (Config.init triangleHeap triangleMesh)).mesh
        = triangleMesh) ∧
    ((run sampleAlgorithm true true 1 1 16 (Config.init triangleHeap triangleMesh)).heap
        = triangleHeap ∧
      (run sampleAlgorithm true true 1 1 16 (Config.init triangleHeap triangleMesh)).mesh
        = triangleMesh) ∧
    (run sampleAlgorithm true true 1 1
        (stepsToSwap triangleMesh quadAndTwoTriangles.vertices.length
          quadAndTwoTriangles.faces.length) (Config.init triangleHeap triangleMesh)).phase
      = Phase.deleteVertices :=
  ⟨(mesh_untouched_before_swap sampleAlgorithm true true 1 1 triangleHeap triangleMesh).1 14
      (by rfl),
   (mesh_untouched_before_swap sampleAlgorithm true true 1 1 triangleHeap triangleMesh).1 16
      (by rfl),
   ((mesh_untouched_before_swap sampleAlgorithm true true 1 1 triangleHeap triangleMesh).2.1
      [⟨0, 0, 0⟩, ⟨1, 0, 0⟩, ⟨0, 1, 0⟩] [(0, 1, 2)] quadAndTwoTriangles
      (by decide) (by decide) rfl).2.1⟩

/-! ## Allocation failure -/

theorem deleteArr_inv {R : Type} (h h1 : Heap R) (p : Ptr) (hd : h.deleteArr p = some h1)
    (h0 : p ≠ 0) :
    ∃ cs, h.blocks[p - 1]? = some ⟨cs, true⟩ ∧
      h1 = ⟨h.blocks.set (p - 1) ⟨cs, false⟩, h.released ++ [p]⟩ := by
  unfold Heap.deleteArr at hd
  simp only [h0, if_false] at hd
  cases hb : h.blocks[p - 1]? with
  | none => simp [hb] at hd
  | some b =>
    obtain ⟨cs, live⟩ := b
    cases live with
    | false => simp [hb] at hd
    | true =>
      simp [hb] at hd
      exact ⟨cs, rfl, hd.symm⟩

theorem deletes_dead {R : Type} (h ha hb : Heap R) (p q : Ptr)
    (hd1 : h.deleteArr p = some ha) (hd2 : ha.deleteArr q = some hb) :
    (p ≠ 0 → ∃ cs, hb.blocks[p - 1]? = some ⟨cs, false⟩) ∧
    (q ≠ 0 → ∃ cs, hb.blocks[q - 1]? = some ⟨cs, false⟩) := by
  have hq : q ≠ 0 → ∃ cs, hb.blocks[q - 1]? = some ⟨cs, false⟩ := by
    intro q0
    obtain ⟨cq, hbq, e⟩ := deleteArr_inv ha hb q hd2 q0
    have hlt : q - 1 < ha.blocks.length := by
      by_contra hge
      rw [List.getElem?_eq_none (Nat.le_of_not_lt hge)] at hbq
      cases hbq
    refine ⟨cq, ?_⟩
    rw [e]
    simp [List.getElem?_set, hlt]
  refine ⟨?_, hq⟩
  intro p0
  obtain ⟨cp, hbp, e⟩ := deleteArr_inv h ha p hd1 p0
  have hlt : p - 1 < h.blocks.length := by
    by_contra hge
    rw [List.getElem?_eq_none (Nat.le_of_not_lt hge)] at hbp
    cases hbp
  have hap : ha.blocks[p - 1]? = some ⟨cp, false⟩ := by
    rw [e]
    simp [List.getElem?_set, hlt]
  by_cases q0 : q = 0
  · subst q0
    have : hb = ha := by
      simp [Heap.deleteArr] at hd2
      exact hd2.symm
    rw [this]
    exact ⟨cp, hap⟩
  · by_cases hpq : q - 1 = p - 1
    · rw [← hpq]
      exact hq q0
    · obtain ⟨cq, _, e2⟩ := deleteArr_inv ha hb q hd2 q0
      refine ⟨cp, ?_⟩
      rw [e2]
      simp only [List.getElem?_set, hpq, if_false]
      exact hap

theorem block_append_left {R : Type} (B : List (Block R)) (rel : List Ptr) (blk b : Block R)
    (p : Ptr) (hp : B[p - 1]? = some b) (h0 : p ≠ 0) :
    Heap.block ⟨B ++ [blk], rel⟩ p = some b := by
  have hlt : p - 1 < B.length := by
    by_contra hge
    rw [List.getElem?_eq_none (Nat.le_of_not_lt hge)] at hp
    cases hp
  simp only [Heap.block, h0, if_false]
  rw [List.getElem?_append_left hlt, hp]

theorem readDouble_append_fresh {R : Type} (B : List (Block R)) (rel : List Ptr)
    (nv : List R) (k : Nat) :
    Heap.readDouble ⟨B ++ [⟨Cells.doubles (nv.map some), true⟩], rel⟩ (B.length + 1) k
      = nv[k]? := by
  have hb : Heap.block ⟨B ++ [⟨Cells.doubles (nv.map some), true⟩], rel⟩ (B.length + 1)
      = some ⟨Cells.doubles (nv.map some), true⟩ := by
    simp only [Heap.block, Nat.add_one_ne_zero, if_false, Nat.add_sub_cancel]
    rw [List.getElem?_append_right (le_refl _)]
    simp
  unfold Heap.readDouble
  rw [hb]
  simp only [List.getElem?_map]
  cases nv[k]? <;> rfl

/-- Counterexample to claim C4 as stated: on the one-triangle mesh, when the
allocation of line 102 fails, both old arrays have been released (events `1`
and `2`), `vertices.size` is 12 instead of 9, and `vertices.arr` still holds
address `1`, a released block that can no longer be read. -/
theorem allocation_failure_counterexample :
    alphaWrapTriMesh sampleAlgorithm false true triangleHeap triangleMesh 1 1
        = Outcome.threw triangleFailHeap triangleFailMesh ["faces size: 4\n"] ∧
    triangleHeap.released = [] ∧ triangleFailHeap.released = [1, 2] ∧
    triangleMesh.vertices.size = 9 ∧ triangleFailMesh.vertices.size = 12 ∧
    triangleFailMesh.vertices.arr = 1 ∧
    triangleFailHeap.block 1
      = some ⟨Cells.doubles [some 0, some 0, some 0, some 1, some 0, some 0, some 0, some 1,
          some 0], false⟩ ∧
    triangleFailHeap.readDouble triangleFailMesh.vertices.arr 0 = none ∧
    ¬ (triangleFailHeap = triangleHeap ∧ triangleFailMesh = triangleMesh) := by
  refine ⟨by rfl, rfl, rfl, rfl, rfl, rfl, by rfl, by rfl, by decide⟩

/-! ## Release events -/

theorem getElem?_lt_of_some {α : Type} (l : List α) (i : Nat) (a : α) (h : l[i]? = some a) :
    i < l.length := by
  by_contra hge
  rw [List.getElem?_eq_none (Nat.le_of_not_lt hge)] at h
  cases h

theorem le_of_pred_lt_length (a n : Nat) (h : a - 1 < n) : a ≤ n := by
  omega

theorem block_append {R : Type} (B rest : List (Block R)) (rel : List Ptr) (b : Block R)
    (p : Ptr) (hp : B[p - 1]? = some b) (h0 : p ≠ 0) :
    Heap.block ⟨B ++ rest, rel⟩ p = some b := by
  have hlt := getElem?_lt_of_some B (p - 1) b hp
  simp only [Heap.block, h0, if_false]
  rw [List.getElem?_append_left hlt, hp]

/-- What lines 97-98 do to the heap, whenever both statements are defined. -/
theorem deletes_events {R : Type} (h ha hb : Heap R) (p q : Ptr)
    (hd1 : h.deleteArr p = some ha) (hd2 : ha.deleteArr q = some hb) :
    hb.released = h.released ++ releaseEvents p ++ releaseEvents q ∧
    (releaseEvents p ++ releaseEvents q).Nodup ∧
    hb.blocks.length = h.blocks.length ∧
    ∀ a, a ∈ releaseEvents p ++ releaseEvents q →
      a ≠ 0 ∧ a ≤ h.blocks.length ∧
      (∃ cs, h.blocks[a - 1]? = some ⟨cs, true⟩) ∧
      (∃ cs, hb.blocks[a - 1]? = some ⟨cs, false⟩) := by
  have hlen : hb.blocks.length = h.blocks.length := by
    rw [deleteArr_length ha hb _ hd2, deleteArr_length h ha _ hd1]
  obtain ⟨deadP, deadQ⟩ := deletes_dead h ha hb p q hd1 hd2
  by_cases p0 : p = 0
  · subst p0
    have e1 : ha = h := by
      simp [Heap.deleteArr] at hd1
      exact hd1.symm
    subst e1
    by_cases q0 : q = 0
    · subst q0
      have e2 : hb = ha := by
        simp [Heap.deleteArr] at hd2
        exact hd2.symm
      subst e2
      simp [releaseEvents]
    · obtain ⟨cq, hq, e2⟩ := deleteArr_inv ha hb q hd2 q0
      have hlt := getElem?_lt_of_some _ _ _ hq
      refine ⟨by rw [e2]; simp [releaseEvents, q0], by simp [releaseEvents, q0], hlen, ?_⟩
      intro a hmem
      simp [releaseEvents, q0] at hmem
      subst hmem
      exact ⟨q0, le_of_pred_lt_length _ _ hlt, ⟨cq, hq⟩, deadQ q0⟩
  · obtain ⟨cp, hp, e1⟩ := deleteArr_inv h ha p hd1 p0
    have hltp := getElem?_lt_of_some _ _ _ hp
    by_cases q0 : q = 0
    · subst q0
      have e2 : hb = ha := by
        simp [Heap.deleteArr] at hd2
        exact hd2.symm
      subst e2
      refine ⟨by rw [e1]; simp [releaseEvents, p0], by simp [releaseEvents, p0], hlen, ?_⟩
      intro a hmem
      simp [releaseEvents, p0] at hmem
      subst hmem
      exact ⟨p0, le_of_pred_lt_length _ _ hltp, ⟨cp, hp⟩, deadP p0⟩
    · obtain ⟨cq, hq, e2⟩ := deleteArr_inv ha hb q hd2 q0
      have hne : p - 1 ≠ q - 1 := by
        intro he
        rw [e1, ← he] at hq
        simp [List.getElem?_set, hltp] at hq
      have hpq : p ≠ q := fun he => hne (by rw [he])
      have hqh : h.blocks[q - 1]? = some ⟨cq, true⟩ := by
        rw [e1] at hq
        simpa [List.getElem?_set, hne] using hq
      have hltq := getElem?_lt_of_some _ _ _ hqh
      refine ⟨by rw [e2, e1]; simp [releaseEvents, p0, q0],
        by simp [releaseEvents, p0, q0, hpq], hlen, ?_⟩
      intro a hmem
      simp [releaseEvents, p0, q0] at hmem
      rcases hmem with hmem | hmem
      · subst hmem
        exact ⟨p0, le_of_pred_lt_length _ _ hltp, ⟨cp, hp⟩, deadP p0⟩
      · subst hmem
        exact ⟨q0, le_of_pred_lt_length _ _ hltq, ⟨cq, hqh⟩, deadQ q0⟩

/-- Every way the function can end. -/
theorem outcome_cases {R : Type} (alpha_wrap_3 : WrapAlgorithm R) (okV okI : Bool)
    (h : Heap R) (mesh : TriMesh) (alpha offset : R) :
    alphaWrapTriMesh alpha_wrap_3 okV okI h mesh alpha offset = Outcome.undefined ∨
    (∃ points triangles, buildPoints h mesh = some points ∧
      buildTriangles h mesh = some triangles ∧
      alpha_wrap_3 points triangles alpha offset = none ∧
      alphaWrapTriMesh alpha_wrap_3 okV okI h mesh alpha offset = Outcome.threw h mesh []) ∨
    (∃ points triangles wrap ha hb, buildPoints h mesh = some points ∧
      buildTriangles h mesh = some triangles ∧
      alpha_wrap_3 points triangles alpha offset = some wrap ∧
      h.deleteArr mesh.vertices.arr = some ha ∧ ha.deleteArr mesh.indices.arr = some hb ∧
      alphaWrapTriMesh alpha_wrap_3 okV okI h mesh alpha offset
        = if okV = true then
            if okI = true then
              Outcome.returned
                (installedHeap hb.blocks hb.released (extractedVertices wrap)
                  (extractedIndices wrap))
                ⟨⟨hb.blocks.length + 1, (extractedVertices wrap).length⟩,
                 ⟨hb.blocks.length + 2, (extractedIndices wrap).length⟩⟩
                (extractedDiagnostics wrap)
            else
              Outcome.threw
                ⟨hb.blocks ++ [⟨Cells.doubles ((extractedVertices wrap).map some), true⟩],
                  hb.released⟩
                ⟨⟨hb.blocks.length + 1, (extractedVertices wrap).length⟩,
                 ⟨mesh.indices.arr, (extractedIndices wrap).length⟩⟩
                (extractedDiagnostics wrap)
          else
            Outcome.threw hb
              ⟨⟨mesh.vertices.arr, (extractedVertices wrap).length⟩, mesh.indices⟩
              (extractedDiagnostics wrap)) := by
  cases hp : buildPoints h mesh with
  | none => left; simp [alphaWrapTriMesh, hp]
  | some points =>
    cases ht : buildTriangles h mesh with
    | none => left; simp [alphaWrapTriMesh, hp, ht]
    | some triangles =>
      cases hw : alpha_wrap_3 points triangles alpha offset with
      | none =>
        right; left
        exact ⟨points, triangles, rfl, rfl, hw, by simp [alphaWrapTriMesh, hp, ht, hw]⟩
      | some wrap =>
        cases hd1 : h.deleteArr mesh.vertices.arr with
        | none => left; simp [alphaWrapTriMesh, hp, ht, hw, swapBuffers, hd1]
        | some ha =>
          cases hd2 : ha.deleteArr mesh.indices.arr with
          | none => left; simp [alphaWrapTriMesh, hp, ht, hw, swapBuffers, hd1, hd2]
          | some hb =>
            right; right
            refine ⟨points, triangles, wrap, ha, hb, rfl, rfl, hw, rfl, hd2, ?_⟩
            unfold alphaWrapTriMesh
            simp only [hp, ht, hw]
            rw [swapBuffers_eq okV okI h ha hb mesh _ _ _ hd1 hd2]
            rfl

/-- The heap of any outcome of lines 97-108 extends the heap left by the two
`delete[]` statements with fresh blocks only. -/
theorem swap_outcome_heap {R : Type} (okV okI : Bool) (hb : Heap R) (mesh : TriMesh)
    (nv : List R) (ni : List Nat) (cerr0 : List String)
    (h1 : Heap R) (mesh1 : TriMesh) (cerr : List String)
    (ho : (if okV = true then
            if okI = true then
              Outcome.returned (installedHeap hb.blocks hb.released nv ni)
                ⟨⟨hb.blocks.length + 1, nv.length⟩, ⟨hb.blocks.length + 2, ni.length⟩⟩ cerr0
            else
              Outcome.threw ⟨hb.blocks ++ [⟨Cells.doubles (nv.map some), true⟩], hb.released⟩
                ⟨⟨hb.blocks.length + 1, nv.length⟩, ⟨mesh.indices.arr, ni.length⟩⟩ cerr0
          else
            Outcome.threw hb ⟨⟨mesh.vertices.arr, nv.length⟩, mesh.indices⟩ cerr0)
        = Outcome.returned h1 mesh1 cerr ∨
      (if okV = true then
            if okI = true then
              Outcome.returned (installedHeap hb.blocks hb.released nv ni)
                ⟨⟨hb.blocks.length + 1, nv.length⟩, ⟨hb.blocks.length + 2, ni.length⟩⟩ cerr0
            else
              Outcome.threw ⟨hb.blocks ++ [⟨Cells.doubles (nv.map some), true⟩], hb.released⟩
                ⟨⟨hb.blocks.length + 1, nv.length⟩, ⟨mesh.indices.arr, ni.length⟩⟩ cerr0
          else
            Outcome.threw hb ⟨⟨mesh.vertices.arr, nv.length⟩, mesh.indices⟩ cerr0)
        = Outcome.threw h1 mesh1 cerr) :
    ∃ rest, h1 = ⟨hb.blocks ++ rest, hb.released⟩ := by
  cases okV with
  | false =>
    simp only [Bool.false_eq_true, if_false] at ho
    rcases ho with ho | ho
    · cases ho
    · injection ho with e1 _ _
      exact ⟨[], by rw [← e1]; simp⟩
  | true =>
    cases okI with
    | false =>
      simp only [if_true, Bool.false_eq_true, if_false] at ho
      rcases ho with ho | ho
      · cases ho
      · injection ho with e1 _ _
        exact ⟨_, e1.symm⟩
    | true =>
      simp only [if_true] at ho
      rcases ho with ho | ho
      · injection ho with e1 _ _
        refine ⟨[⟨Cells.doubles (nv.map some), true⟩] ++ [⟨Cells.sizes (ni.map some), true⟩], ?_⟩
        rw [← e1, installedHeap, List.append_assoc]
      · cases ho

/-- Every defined run of lines 97-108 releases the two old arrays and nothing else. -/
theorem swapBuffers_released {R : Type} (okV okI : Bool) (h : Heap R) (mesh : TriMesh)
    (nv : List R) (ni : List Nat) (cerr0 : List String)
    (h1 : Heap R) (mesh1 : TriMesh) (cerr : List String)
    (ho : swapBuffers okV okI h mesh nv ni cerr0 = Outcome.returned h1 mesh1 cerr ∨
      swapBuffers okV okI h mesh nv ni cerr0 = Outcome.threw h1 mesh1 cerr) :
    h1.released
      = h.released ++ (releaseEvents mesh.vertices.arr ++ releaseEvents mesh.indices.arr) ∧
    (releaseEvents mesh.vertices.arr ++ releaseEvents mesh.indices.arr).Nodup ∧
    ∀ a, a ∈ releaseEvents mesh.vertices.arr ++ releaseEvents mesh.indices.arr →
      a ≤ h.blocks.length ∧ (∃ cs, h.block a = some ⟨cs, true⟩) ∧
      (∃ cs, h1.block a = some ⟨cs, false⟩) := by
  cases hd1 : h.deleteArr mesh.vertices.arr with
  | none =>
    simp only [swapBuffers, hd1] at ho
    rcases ho with ho | ho <;> cases ho
  | some ha =>
    cases hd2 : ha.deleteArr mesh.indices.arr with
    | none =>
      simp only [swapBuffers, hd1, hd2] at ho
      rcases ho with ho | ho <;> cases ho
    | some hb =>
      obtain ⟨hrel, hnd, _, hev⟩ := deletes_events h ha hb _ _ hd1 hd2
      rw [swapBuffers_eq okV okI h ha hb mesh _ _ _ hd1 hd2] at ho
      obtain ⟨rest, hrest⟩ := swap_outcome_heap okV okI hb mesh _ _ _ h1 mesh1 cerr ho
      refine ⟨by rw [hrest, hrel, List.append_assoc], hnd, ?_⟩
      intro a hmem
      obtain ⟨a0, hle, ⟨cs, hcs⟩, ⟨cs2, hcs2⟩⟩ := hev a hmem
      refine ⟨hle, ⟨cs, by simp [Heap.block, a0, hcs]⟩, ⟨cs2, ?_⟩⟩
      rw [hrest]
      exact block_append _ _ _ _ _ hcs2 a0

/-- Claim C11: no storage is released more than once.  Every run of lines
97-108 that returns or throws adds to the trace exactly the release events of the
old vertex array and of the old index array, one each, without repetition, each
for a block that was live on entry and is released afterwards.  A run of the
whole function adds either these events or, when the wrapping call fails, none.
After a normal return the newly installed arrays have no release event and are
live.  On a valid mesh no run is undefined. -/
theorem no_storage_released_twice {R : Type} (alpha_wrap_3 : WrapAlgorithm R)
    (okV okI : Bool) (h : Heap R) (mesh : TriMesh) (alpha offset : R) :
    (∀ (nv : List R) (ni : List Nat) (cerr0 : List String)
      (h1 : Heap R) (mesh1 : TriMesh) (cerr : List String),
      (swapBuffers okV okI h mesh nv ni cerr0 = Outcome.returned h1 mesh1 cerr ∨
        swapBuffers okV okI h mesh nv ni cerr0 = Outcome.threw h1 mesh1 cerr) →
      h1.released
        = h.released ++ (releaseEvents mesh.vertices.arr ++ releaseEvents mesh.indices.arr) ∧
      (releaseEvents mesh.vertices.arr ++ releaseEvents mesh.indices.arr).Nodup ∧
      (mesh.vertices.arr ≠ 0 →
        (releaseEvents mesh.vertices.arr ++ releaseEvents mesh.indices.arr).count
          mesh.vertices.arr = 1) ∧
      (mesh.indices.arr ≠ 0 →
        (releaseEvents mesh.vertices.arr ++ releaseEvents mesh.indices.arr).count
          mesh.indices.arr = 1) ∧
      ∀ a, a ∈ releaseEvents mesh.vertices.arr ++ releaseEvents mesh.indices.arr →
        (∃ cs, h.block a = some ⟨cs, true⟩) ∧ (∃ cs, h1.block a = some ⟨cs, false⟩)) ∧
    (∀ (h1 : Heap R) (mesh1 : TriMesh) (cerr : List String),
      (alphaWrapTriMesh alpha_wrap_3 okV okI h mesh alpha offset
          = Outcome.returned h1 mesh1 cerr ∨
        alphaWrapTriMesh alpha_wrap_3 okV okI h mesh alpha offset
          = Outcome.threw h1 mesh1 cerr) →
      ∃ ev, h1.released = h.released ++ ev ∧ ev.Nodup ∧
        ((ev = [] ∧ ∃ points triangles, buildPoints h mesh = some points ∧
            buildTriangles h mesh = some triangles ∧
            alpha_wrap_3 points triangles alpha offset = none) ∨
          ev = releaseEvents mesh.vertices.arr ++ releaseEvents mesh.indices.arr) ∧
        ∀ a, a ∈ ev → (∃ cs, h.block a = some ⟨cs, true⟩) ∧
          (∃ cs, h1.block a = some ⟨cs, false⟩)) ∧
    (∀ (h1 : Heap R) (mesh1 : TriMesh) (cerr : List String),
      alphaWrapTriMesh alpha_wrap_3 okV okI h mesh alpha offset
          = Outcome.returned h1 mesh1 cerr →
      h1.released
        = h.released ++ (releaseEvents mesh.vertices.arr ++ releaseEvents mesh.indices.arr) ∧
      mesh1.vertices.arr ∉ releaseEvents mesh.vertices.arr ++ releaseEvents mesh.indices.arr ∧
      mesh1.indices.arr ∉ releaseEvents mesh.vertices.arr ++ releaseEvents mesh.indices.arr ∧
      (∃ cs, h1.block mesh1.vertices.arr = some ⟨cs, true⟩) ∧
      (∃ cs, h1.block mesh1.indices.arr = some ⟨cs, true⟩)) ∧
    (ValidMesh h mesh →
      alphaWrapTriMesh alpha_wrap_3 okV okI h mesh alpha offset ≠ Outcome.undefined) := by
  refine ⟨?_, ?_, ?_, ?_⟩
  · intro nv ni cerr0 h1 mesh1 cerr ho
    obtain ⟨hrel, hnd, hev⟩ := swapBuffers_released okV okI h mesh nv ni cerr0 h1 mesh1 cerr ho
    refine ⟨hrel, hnd, ?_, ?_, fun a hmem => (hev a hmem).2⟩
    · intro v0
      exact List.count_eq_one_of_mem hnd (by simp [releaseEvents, v0])
    · intro i0
      exact List.count_eq_one_of_mem hnd (by simp [releaseEvents, i0])
  · intro h1 mesh1 cerr ho
    rcases outcome_cases alpha_wrap_3 okV okI h mesh alpha offset with hu | hn | hs
    · rw [hu] at ho
      rcases ho with ho | ho <;> cases ho
    · obtain ⟨points, triangles, hp, ht, hw, hthrew⟩ := hn
      rw [hthrew] at ho
      rcases ho with ho | ho
      · cases ho
      · injection ho with e1 _ _
        refine ⟨[], by rw [← e1]; simp, List.nodup_nil,
          Or.inl ⟨rfl, points, triangles, hp, ht, hw⟩, ?_⟩
        intro a hmem
        cases hmem
    · obtain ⟨points, triangles, wrap, _, _, hp, ht, hw, _, _, _⟩ := hs
      have hsw : alphaWrapTriMesh alpha_wrap_3 okV okI h mesh alpha offset
          = swapBuffers okV okI h mesh (extractVertices wrap).new_vertices
              (extractFaces wrap (extractVertices wrap).vertex_map).new_indices
              (extractFaces wrap (extractVertices wrap).vertex_map).cerr := by
        simp [alphaWrapTriMesh, hp, ht, hw]
      rw [hsw] at ho
      obtain ⟨hrel, hnd, hev⟩ := swapBuffers_released okV okI h mesh _ _ _ h1 mesh1 cerr ho
      exact ⟨_, hrel, hnd, Or.inr rfl, fun a hmem => (hev a hmem).2⟩
  · intro h1 mesh1 cerr hret
    obtain ⟨_, _, wrap, ha, hb, _, _, _, hd1, hd2, _, _, e1, e2, _⟩ :=
      returned_inv alpha_wrap_3 okV okI h mesh alpha offset h1 mesh1 cerr hret
    obtain ⟨hrel, _, hlen, hev⟩ := deletes_events h ha hb _ _ hd1 hd2
    subst e1 e2
    refine ⟨by simp only [installedHeap]; rw [hrel, List.append_assoc], ?_, ?_,
      ⟨_, installedHeap_block_vertices _ _ _ _⟩, ⟨_, installedHeap_block_indices _ _ _ _⟩⟩
    · intro hmem
      obtain ⟨_, hle, _, _⟩ := hev _ hmem
      rw [hlen] at hle
      exact Nat.not_succ_le_self _ hle
    · intro hmem
      obtain ⟨_, hle, _, _⟩ := hev _ hmem
      rw [hlen] at hle
      exact Nat.not_succ_le_self _ (Nat.le_of_succ_le hle)
  · intro hvalid hu
    obtain ⟨points, triangles, hp, ht⟩ := buildSoup_defined h mesh hvalid
    cases hw : alpha_wrap_3 points triangles alpha offset with
    | none => simp [alphaWrapTriMesh, hp, ht, hw] at hu
    | some wrap =>
      obtain ⟨_, _, _, _, _, _, heq⟩ :=
        alphaWrapTriMesh_eq alpha_wrap_3 okV okI h mesh alpha offset points triangles wrap
          hvalid hp ht hw
      rw [heq] at hu
      cases okV <;> cases okI <;> simp at hu

/-- Witness for claim C11: the run on the one-triangle mesh releases the
old arrays at addresses `1` and `2` once each and installs arrays `3` and `4`;
when the allocation of line 102 fails the same two events have been recorded. -/
theorem no_storage_released_twice_witness :
    (triangleRunHeap.released = triangleHeap.released
        ++ (releaseEvents triangleMesh.vertices.arr ++ releaseEvents triangleMesh.indices.arr) ∧
      triangleRunMesh.vertices.arr
        ∉ releaseEvents triangleMesh.vertices.arr ++ releaseEvents triangleMesh.indices.arr ∧
      triangleRunMesh.indices.arr
        ∉ releaseEvents triangleMesh.vertices.arr ++ releaseEvents triangleMesh.indices.arr ∧
      (∃ cs, triangleRunHeap.block triangleRunMesh.vertices.arr = some ⟨cs, true⟩) ∧
      (∃ cs, triangleRunHeap.block triangleRunMesh.indices.arr = some ⟨cs, true⟩)) ∧
    (∃ ev, triangleFailHeap.released = triangleHeap.released ++ ev ∧ ev.Nodup ∧
      ((ev = [] ∧ ∃ points triangles, buildPoints triangleHeap triangleMesh = some points ∧
          buildTriangles triangleHeap triangleMesh = some triangles ∧
          sampleAlgorithm points triangles 1 1 = none) ∨
        ev = releaseEvents triangleMesh.vertices.arr ++ releaseEvents triangleMesh.indices.arr) ∧
      ∀ a, a ∈ ev → (∃ cs, triangleHeap.block a = some ⟨cs, true⟩) ∧
        (∃ cs, triangleFailHeap.block a = some ⟨cs, false⟩)) ∧
    alphaWrapTriMesh sampleAlgorithm true true triangleHeap triangleMesh 1 1
      ≠ Outcome.undefined :=
  ⟨(no_storage_released_twice sampleAlgorithm true true triangleHeap triangleMesh 1 1).2.2.1
      triangleRunHeap triangleRunMesh ["faces size: 4\n"] (by rfl),
   (no_storage_released_twice sampleAlgorithm false true triangleHeap triangleMesh 1 1).2.1
      triangleFailHeap triangleFailMesh ["faces size: 4\n"] (Or.inr (by rfl)),
   (no_storage_released_twice sampleAlgorithm true true triangleHeap triangleMesh 1 1).2.2.2
      (by decide)⟩

/-! ## The empty mesh -/

theorem final_of_failed (p : Phase) (hp : p.failed = true) : p.final = true := by
  cases p <;> simp [Phase.failed, Phase.final] at hp ⊢

theorem outcome_of_failed {R : Type} (c : Config R) (hp : c.phase.failed = true)
    (h1 : Heap R) (mesh1 : TriMesh) (cerr : List String) :
    c.outcome ≠ some (Outcome.returned h1 mesh1 cerr) := by
  unfold Config.outcome
  cases hph : c.phase <;> simp [hph, Phase.failed] at hp ⊢

/-- A run whose outcome is a normal return never passes through a failing step. -/
theorem no_failed_step_of_returned {R : Type} (alpha_wrap_3 : WrapAlgorithm R)
    (okV okI : Bool) (alpha offset : R) (h : Heap R) (mesh : TriMesh)
    (h1 : Heap R) (mesh1 : TriMesh) (cerr : List String)
    (hret : alphaWrapTriMesh alpha_wrap_3 okV okI h mesh alpha offset
      = Outcome.returned h1 mesh1 cerr) (n : Nat) :
    (run alpha_wrap_3 okV okI alpha offset n (Config.init h mesh)).phase.failed = false := by
  cases hf : (run alpha_wrap_3 okV okI alpha offset n (Config.init h mesh)).phase.failed with
  | false => rfl
  | true =>
    exfalso
    obtain ⟨N, hN⟩ := run_agrees alpha_wrap_3 okV okI alpha offset h mesh
    have hm := hN (n + N) (by omega)
    rw [run_add, run_of_final _ _ _ _ _ N _ (final_of_failed _ hf), hret] at hm
    exact outcome_of_failed _ hf h1 mesh1 cerr hm

theorem extracted_of_empty {R : Type} (wrap : Surface_mesh R)
    (hv : wrap.vertices = []) (hf : wrap.faces = []) :
    extractedVertices wrap = [] ∧ extractedIndices wrap = [] ∧
    extractedDiagnostics wrap = [] := by
  refine ⟨?_, ?_, ?_⟩
  · rw [extractedVertices_eq, hv]; rfl
  · rw [extractedIndices_eq, hf]; rfl
  · rw [extractedDiagnostics_eq, hf]; rfl

/-- Claim C12: for a mesh buffer with 0 vertices and 0 indices the soup
builder reads nothing and yields the empty point and triangle sequences; when
the wrapping algorithm returns the empty surface for that soup, the call
returns, no step fails, and the installed vertex and index buffers have size 0. -/
theorem empty_mesh_yields_empty_mesh {R : Type} (alpha_wrap_3 : WrapAlgorithm R)
    (h : Heap R) (mesh : TriMesh) (alpha offset : R)
    (hsv : mesh.vertices.size = 0) (hsi : mesh.indices.size = 0) :
    (buildPoints h mesh = some [] ∧ buildTriangles h mesh = some []) ∧
    ∀ wrap : Surface_mesh R,
      h.ownsDoubles mesh.vertices.arr = true → h.ownsSizes mesh.indices.arr = true →
      alpha_wrap_3 [] [] alpha offset = some wrap →
      wrap.vertices = [] → wrap.faces = [] →
      ∃ h1 mesh1,
        alphaWrapTriMesh alpha_wrap_3 true true h mesh alpha offset
          = Outcome.returned h1 mesh1 [] ∧
        mesh1.vertices.size = 0 ∧ mesh1.indices.size = 0 ∧
        h1.doublesOf mesh1.vertices = some [] ∧ h1.sizesOf mesh1.indices = some [] ∧
        (∀ n, (run alpha_wrap_3 true true alpha offset n (Config.init h mesh)).phase.failed
          = false) ∧
        (run alpha_wrap_3 true true alpha offset 13 (Config.init h mesh)).phase
          = Phase.returned := by
  have hp : buildPoints h mesh = some [] := by simp [buildPoints, hsv, forRange]
  have ht : buildTriangles h mesh = some [] := by simp [buildTriangles, hsi, forRange]
  refine ⟨⟨hp, ht⟩, ?_⟩
  intro wrap hov hoi hw hwv hwf
  have hvalid : ValidMesh h mesh := by
    refine ⟨?_, ?_, hov, hoi⟩
    · simp [Heap.doublesOf, hsv, readAll]
    · simp [Heap.sizesOf, hsi, readAll]
  obtain ⟨ev, ei, ed⟩ := extracted_of_empty wrap hwv hwf
  obtain ⟨ha, hb, hd1, hd2, _, _, heq⟩ :=
    alphaWrapTriMesh_eq alpha_wrap_3 true true h mesh alpha offset [] [] wrap hvalid hp ht hw
  simp only [if_true, ev, ei, ed, List.length_nil] at heq
  refine ⟨_, _, heq, rfl, rfl, rfl, rfl, ?_, ?_⟩
  · intro n
    exact no_failed_step_of_returned alpha_wrap_3 true true alpha offset h mesh _ _ _ heq n
  · have hsteps : stepsToSwap mesh wrap.vertices.length wrap.faces.length = 5 := by
      simp [stepsToSwap, hsv, hsi, hwv, hwf]
    have hswap := run_to_swap alpha_wrap_3 true true alpha offset h mesh [] [] wrap hp ht hw
    rw [hsteps] at hswap
    have h13 : (13 : Nat) = 5 + 8 := rfl
    rw [h13, run_add, hswap]
    obtain ⟨hfin, hout⟩ := run_swap alpha_wrap_3 true true alpha offset
      (Config.atSwap h mesh [] [] wrap) rfl
    have hsw : swapBuffers true true (Config.atSwap h mesh [] [] wrap).heap
        (Config.atSwap h mesh [] [] wrap).mesh (Config.atSwap h mesh [] [] wrap).new_vertices
        (Config.atSwap h mesh [] [] wrap).new_indices (Config.atSwap h mesh [] [] wrap).cerr
        = alphaWrapTriMesh alpha_wrap_3 true true h mesh alpha offset := by
      simp [alphaWrapTriMesh, hp, ht, hw, Config.atSwap]
    rw [hsw, heq] at hout
    revert hout
    unfold Config.outcome
    cases hph : (run alpha_wrap_3 true true alpha offset 8
      (Config.atSwap h mesh [] [] wrap)).phase <;> simp

/-- Witness for claim C12: the empty mesh buffer with null pointers. -/
theorem empty_mesh_yields_empty_mesh_witness :
    (buildPoints emptyHeap emptyMesh = some [] ∧ buildTriangles emptyHeap emptyMesh = some []) ∧
    ∃ h1 mesh1,
      alphaWrapTriMesh emptyAlgorithm true true emptyHeap emptyMesh 1 1
        = Outcome.returned h1 mesh1 [] ∧
      mesh1.vertices.size = 0 ∧ mesh1.indices.size = 0 ∧
      h1.doublesOf mesh1.vertices = some [] ∧ h1.sizesOf mesh1.indices = some [] ∧
      (∀ n, (run emptyAlgorithm true true 1 1 n (Config.init emptyHeap emptyMesh)).phase.failed
        = false) ∧
      (run emptyAlgorithm true true 1 1 13 (Config.init emptyHeap emptyMesh)).phase
        = Phase.returned :=
  ⟨(empty_mesh_yields_empty_mesh emptyAlgorithm emptyHeap emptyMesh 1 1 rfl rfl).1,
   (empty_mesh_yields_empty_mesh emptyAlgorithm emptyHeap emptyMesh 1 1 rfl rfl).2 emptySurface
     (by decide) (by decide) rfl rfl rfl⟩

/-! ## Emitted indices and geometry -/

/-- Indexing into a concatenation of lists of length three. -/
theorem flatMap_three_getElem? {α β : Type} (g : α → List β) (l : List α)
    (hl : ∀ a, a ∈ l → (g a).length = 3) :
    ∀ (t k : Nat) (a : α), l[t]? = some a → k < 3 →
      (l.flatMap g)[3 * t + k]? = (g a)[k]? := by
  induction l with
  | nil => intro t k a h; simp at h
  | cons b rest ih =>
    intro t k a h hk
    have hb : (g b).length = 3 := hl b (List.mem_cons_self _ _)
    rw [List.flatMap_cons]
    cases t with
    | zero =>
      simp at h
      subst h
      rw [List.getElem?_append_left (by rw [hb]; omega)]
      congr 1
      omega
    | succ t =>
      simp at h
      have hle : (g b).length ≤ 3 * (t + 1) + k := by rw [hb]; omega
      rw [List.getElem?_append_right hle, hb,
        ← ih (fun a ha => hl a (List.mem_cons_of_mem _ ha)) t k a h hk]
      congr 1
      omega

/-- Claim C13: when the vertex iteration yields every vertex once and the
faces reference only exposed vertices, the `k`-th index emitted for the `t`-th
triangular face denotes that face's `k`-th vertex: the output vertex buffer holds
the x, y, z of that vertex at positions `3j`, `3j+1`, `3j+2` for the emitted
index `j`. -/
theorem emitted_index_denotes_face_vertex {R : Type} (wrap : Surface_mesh R)
    (hnodup : wrap.vertices.Nodup)
    (hexposed : ∀ f, f ∈ wrap.faces → ∀ v, v ∈ wrap.vertices_around_face f → v ∈ wrap.vertices)
    (t k : Nat) (f : Face_index) (v : Vertex_index)
    (hf : (wrap.faces.filter
      (fun f => decide ((wrap.vertices_around_face f).length = 3)))[t]? = some f)
    (hv : (wrap.vertices_around_face f)[k]? = some v) :
    ∃ j, (extractedIndices wrap)[3 * t + k]? = some j ∧
      wrap.vertices[j]? = some v ∧
      (extractedVertices wrap)[3 * j]? = some (wrap.point v).x ∧
      (extractedVertices wrap)[3 * j + 1]? = some (wrap.point v).y ∧
      (extractedVertices wrap)[3 * j + 2]? = some (wrap.point v).z := by
  have hfmem : f ∈ wrap.faces.filter
      (fun f => decide ((wrap.vertices_around_face f).length = 3)) :=
    List.mem_iff_getElem?.mpr ⟨t, hf⟩
  have hf3 : (wrap.vertices_around_face f).length = 3 := by
    simpa using (List.mem_filter.mp hfmem).2
  have hk : k < 3 := by
    by_contra hge
    rw [List.getElem?_eq_none (by omega)] at hv
    cases hv
  have hvmem : v ∈ wrap.vertices :=
    hexposed f (List.mem_filter.mp hfmem).1 v (List.mem_iff_getElem?.mpr ⟨k, hv⟩)
  obtain ⟨i, hi⟩ := List.mem_iff_getElem?.mp hvmem
  have hfind : VertexMap.find (extractedVertexMap wrap) v = some i := by
    have := vertexLoop_find_of_nodup wrap wrap.vertices hnodup ⟨[], [], 0⟩ i v hi
    simpa [extractedVertexMap, extractVertices] using this
  have hres : resolvedIndex wrap v = i := by
    simp [resolvedIndex, VertexMap.subscript_fst, hfind]
  refine ⟨i, ?_, hi, ?_⟩
  · rw [extractedIndices_eq,
      flatMap_three_getElem? _ _ (fun a ha => by
        have := (List.mem_filter.mp ha).2
        simpa using this) t k f hf hk,
      List.getElem?_map, hv, Option.map_some', hres]
  · rw [extractedVertices_eq]
    exact flatMap_coordinates_getElem? wrap wrap.vertices i v hi

/-- Witness for claim C13: the third index of the second triangle of the
sample surface (face `2`, vertices `12, 13, 10`) denotes vertex `10`. -/
theorem emitted_index_denotes_face_vertex_witness :
    ∃ j, (extractedIndices quadAndTwoTriangles)[3 * 1 + 2]? = some j ∧
      quadAndTwoTriangles.vertices[j]? = some 10 ∧
      (extractedVertices quadAndTwoTriangles)[3 * j]? = some (quadAndTwoTriangles.point 10).x ∧
      (extractedVertices quadAndTwoTriangles)[3 * j + 1]?
        = some (quadAndTwoTriangles.point 10).y ∧
      (extractedVertices quadAndTwoTriangles)[3 * j + 2]?
        = some (quadAndTwoTriangles.point 10).z :=
  emitted_index_denotes_face_vertex quadAndTwoTriangles (by decide) (by decide) 1 2 2 10
    (by decide) (by decide)

/-! ## Trailing values -/

/-- Two loops over consecutive triples agree when the second reads the
longest prefix of what the first reads whose length is a multiple of 3. -/
theorem tripleLoop_prefix {α β : Type} (read1 read2 : Nat → Option α) (mk : α → α → α → β)
    (body1 body2 : Nat → List β → Option (List β))
    (hbody1 : ∀ j acc, body1 j acc =
      (read1 (j * 3)).bind fun x => (read1 (j * 3 + 1)).bind fun y =>
        (read1 (j * 3 + 2)).bind fun z => some (acc ++ [mk x y z]))
    (hbody2 : ∀ j acc, body2 j acc =
      (read2 (j * 3)).bind fun x => (read2 (j * 3 + 1)).bind fun y =>
        (read2 (j * 3 + 2)).bind fun z => some (acc ++ [mk x y z]))
    (size1 size2 : Nat) (vs : List α)
    (hv1 : readAll read1 size1 = some vs)
    (hv2 : readAll read2 size2 = some (vs.take (3 * (vs.length / 3)))) :
    forRange body2 (size2 / 3) 0 [] = forRange body1 (size1 / 3) 0 [] := by
  obtain ⟨l1, h1, len1, get1⟩ := tripleLoop_spec read1 mk body1 hbody1 size1 vs hv1
  obtain ⟨l2, h2, len2, get2⟩ := tripleLoop_spec read2 mk body2 hbody2 size2 _ hv2
  have hlen : (vs.take (3 * (vs.length / 3))).length = 3 * (vs.length / 3) := by
    rw [List.length_take]
    omega
  rw [hlen] at len2 get2
  have hn : 3 * (vs.length / 3) / 3 = vs.length / 3 := by omega
  rw [hn] at len2 get2
  rw [h1, h2]
  congr 1
  apply List.ext_getElem?
  intro i
  by_cases hi : i < vs.length / 3
  · obtain ⟨x, y, z, a0, a1, a2, a⟩ := get1 i hi
    obtain ⟨x2, y2, z2, b0, b1, b2, b⟩ := get2 i hi
    rw [List.getElem?_take_of_lt (by omega), a0] at b0
    rw [List.getElem?_take_of_lt (by omega), a1] at b1
    rw [List.getElem?_take_of_lt (by omega), a2] at b2
    cases b0
    cases b1
    cases b2
    rw [a, b]
  · rw [List.getElem?_eq_none (by omega), List.getElem?_eq_none (by omega)]

/-- Claim C14: the soup depends only on the longest prefix of each buffer
whose length is a multiple of 3.  At most two trailing values are left out;
recording the truncated lengths in the mesh changes neither sequence; and any
mesh buffer that holds exactly these prefixes yields the same points and the
same triangles, so what is passed to the wrapping algorithm is the same. -/
theorem soup_ignores_trailing_values {R : Type} (h : Heap R) (mesh : TriMesh)
    (vs : List R) (js : List Nat)
    (hvs : h.doublesOf mesh.vertices = some vs) (hjs : h.sizesOf mesh.indices = some js) :
    (vs.length - 3 * (vs.length / 3) ≤ 2 ∧ js.length - 3 * (js.length / 3) ≤ 2) ∧
    (buildPoints h ⟨⟨mesh.vertices.arr, 3 * (mesh.vertices.size / 3)⟩,
        ⟨mesh.indices.arr, 3 * (mesh.indices.size / 3)⟩⟩ = buildPoints h mesh ∧
      buildTriangles h ⟨⟨mesh.vertices.arr, 3 * (mesh.vertices.size / 3)⟩,
        ⟨mesh.indices.arr, 3 * (mesh.indices.size / 3)⟩⟩ = buildTriangles h mesh) ∧
    (∀ (h2 : Heap R) (mesh2 : TriMesh),
      h2.doublesOf mesh2.vertices = some (vs.take (3 * (vs.length / 3))) →
      h2.sizesOf mesh2.indices = some (js.take (3 * (js.length / 3))) →
      buildPoints h2 mesh2 = buildPoints h mesh ∧
      buildTriangles h2 mesh2 = buildTriangles h mesh ∧
      ∀ (alpha_wrap_3 : WrapAlgorithm R) (alpha offset : R) (points : List (Point_3 R))
        (triangles : List (Nat × Nat × Nat)),
        buildPoints h mesh = some points → buildTriangles h mesh = some triangles →
        ∃ points2 triangles2, buildPoints h2 mesh2 = some points2 ∧
          buildTriangles h2 mesh2 = some triangles2 ∧
          alpha_wrap_3 points2 triangles2 alpha offset
            = alpha_wrap_3 points triangles alpha offset) := by
  refine ⟨⟨by omega, by omega⟩, ⟨?_, ?_⟩, ?_⟩
  · have e : 3 * (mesh.vertices.size / 3) / 3 = mesh.vertices.size / 3 := by omega
    simp only [buildPoints, e]
    rfl
  · have e : 3 * (mesh.indices.size / 3) / 3 = mesh.indices.size / 3 := by omega
    simp only [buildTriangles, e]
    rfl
  · intro h2 mesh2 hvs2 hjs2
    have hp : buildPoints h2 mesh2 = buildPoints h mesh :=
      tripleLoop_prefix (h.readDouble mesh.vertices.arr) (h2.readDouble mesh2.vertices.arr)
        Point_3.mk (pointsBody h mesh) (pointsBody h2 mesh2) (fun _ _ => rfl) (fun _ _ => rfl)
        mesh.vertices.size mesh2.vertices.size vs hvs hvs2
    have ht : buildTriangles h2 mesh2 = buildTriangles h mesh :=
      tripleLoop_prefix (h.readSize mesh.indices.arr) (h2.readSize mesh2.indices.arr)
        (fun a b c => (a, b, c)) (trianglesBody h mesh) (trianglesBody h2 mesh2)
        (fun _ _ => rfl) (fun _ _ => rfl) mesh.indices.size mesh2.indices.size js hjs hjs2
    refine ⟨hp, ht, ?_⟩
    intro alpha_wrap_3 alpha offset points triangles hpts htris
    exact ⟨points, triangles, by rw [hp, hpts], by rw [ht, htris], rfl⟩

/-- Witness for claim C14: a vertex buffer of 4 values and an index buffer of
5 values give the same soup as the buffers of 3 and 3 values. -/
theorem soup_ignores_trailing_values_witness :
    (buildPoints strayHeap strayMesh = some [⟨1, 2, 3⟩] ∧
      buildTriangles strayHeap strayMesh = some [(0, 0, 0)]) ∧
    buildPoints prefixHeap prefixMesh = buildPoints strayHeap strayMesh ∧
    buildTriangles prefixHeap prefixMesh = buildTriangles strayHeap strayMesh :=
  ⟨⟨by decide, by decide⟩,
   ((soup_ignores_trailing_values strayHeap strayMesh [1, 2, 3, 4] [0, 0, 0, 5, 6]
      (by decide) (by decide)).2.2 prefixHeap prefixMesh (by decide) (by decide)).1,
   ((soup_ignores_trailing_values strayHeap strayMesh [1, 2, 3, 4] [0, 0, 0, 5, 6]
      (by decide) (by decide)).2.2 prefixHeap prefixMesh (by decide) (by decide)).2.1⟩

/-! ## Faces emitted or reported; unexposed vertices -/

theorem filter_length_add_filter_not {α : Type} (p : α → Bool) (l : List α) :
    (l.filter p).length + (l.filter (fun a => !p a)).length = l.length := by
  induction l with
  | nil => rfl
  | cons a t ih =>
    cases hp : p a <;> simp [List.filter_cons, hp] <;> omega

/-- Claim C15: every face is either emitted or reported, never both: the
number of output triangles plus the number of diagnostics is the number of
faces; so the triangles never outnumber the faces, and there are as many
exactly when no diagnostic is emitted. -/
theorem faces_emitted_or_reported {R : Type} (wrap : Surface_mesh R) :
    (extractedIndices wrap).length / 3 + (extractedDiagnostics wrap).length
        = wrap.faces.length ∧
    (extractedIndices wrap).length / 3 ≤ wrap.faces.length ∧
    ((extractedIndices wrap).length / 3 = wrap.faces.length ↔
      extractedDiagnostics wrap = []) := by
  have hsum := filter_length_add_filter_not
    (fun f => decide ((wrap.vertices_around_face f).length = 3)) wrap.faces
  have hneg : (fun f => !decide ((wrap.vertices_around_face f).length = 3))
      = (fun f => decide ((wrap.vertices_around_face f).length ≠ 3)) := by
    funext f
    simp
  rw [hneg] at hsum
  have hi : (extractedIndices wrap).length / 3
      = (wrap.faces.filter
          (fun f => decide ((wrap.vertices_around_face f).length = 3))).length := by
    rw [length_extractedIndices]
    omega
  have hd : (extractedDiagnostics wrap).length
      = (wrap.faces.filter
          (fun f => decide ((wrap.vertices_around_face f).length ≠ 3))).length := by
    rw [extractedDiagnostics_eq, List.length_map]
  refine ⟨by omega, by omega, ?_⟩
  rw [← List.length_eq_zero]
  omega

theorem resolvedIndex_of_not_mem {R : Type} (wrap : Surface_mesh R) (v : Vertex_index)
    (hv : v ∉ wrap.vertices) :
    VertexMap.find (extractedVertexMap wrap) v = none := by
  have := vertexLoop_find_of_not_mem wrap wrap.vertices v hv ⟨[], [], 0⟩
  simpa [extractedVertexMap, extractVertices, VertexMap.find] using this

/-- Claim C16: a face vertex that the vertex iteration did not expose is not
rejected: the read `vertex_map[v]` inserts the key with value 0 and yields output
index 0.  For the surface `unexposedTriangle` (no exposed vertex, one face with
three vertices) the index buffer is `[0, 0, 0]` and the vertex buffer is empty, so
the output holds an index that is not below `len(vertices) / 3`; the whole call
returns such a mesh. -/
theorem unexposed_vertex_resolves_to_zero {R : Type} (wrap : Surface_mesh R) :
    (∀ v, v ∉ wrap.vertices →
      VertexMap.subscript (extractedVertexMap wrap) v
          = (0, VertexMap.assign (extractedVertexMap wrap) v 0) ∧
      VertexMap.find (VertexMap.subscript (extractedVertexMap wrap) v).2 v = some 0 ∧
      resolvedIndex wrap v = 0) ∧
    (extractedIndices unexposedTriangle = [0, 0, 0] ∧
      extractedVertices unexposedTriangle = [] ∧
      extractedDiagnostics unexposedTriangle = [] ∧
      (∃ j, j ∈ extractedIndices unexposedTriangle ∧
        ¬ j < (extractedVertices unexposedTriangle).length / 3) ∧
      alphaWrapTriMesh unexposedAlgorithm true true triangleHeap triangleMesh 1 1
        = Outcome.returned
            (installedHeap
              [⟨Cells.doubles [some 0, some 0, some 0, some 1, some 0, some 0, some 0, some 1,
                  some 0], false⟩,
               ⟨Cells.sizes [some 0, some 1, some 2], false⟩] [1, 2] [] [0, 0, 0])
            ⟨⟨3, 0⟩, ⟨4, 3⟩⟩ []) := by
  constructor
  · intro v hv
    have hnone := resolvedIndex_of_not_mem wrap v hv
    refine ⟨?_, ?_, ?_⟩
    · simp [VertexMap.subscript, hnone]
    · simp [VertexMap.subscript, hnone, VertexMap.find_assign]
    · simp [resolvedIndex, VertexMap.subscript, hnone]
  · refine ⟨by decide, by decide, by decide, ⟨0, by decide, by decide⟩, by rfl⟩

/-- Witness for claim C16: vertex `7` of `unexposedTriangle` is not exposed. -/
theorem unexposed_vertex_resolves_to_zero_witness :
    VertexMap.subscript (extractedVertexMap unexposedTriangle) 7
        = (0, VertexMap.assign (extractedVertexMap unexposedTriangle) 7 0) ∧
    VertexMap.find (VertexMap.subscript (extractedVertexMap unexposedTriangle) 7).2 7
        = some 0 ∧
    resolvedIndex unexposedTriangle 7 = 0 :=
  (unexposed_vertex_resolves_to_zero unexposedTriangle).1 7 (by decide)

/-! ## The text of a diagnostic -/

theorem digitChar_value (d : Nat) (hd : d < 10) : (Nat.digitChar d).toNat - 48 = d := by
  interval_cases d <;> rfl

theorem foldl_toDigitsCore (fuel : Nat) :
    ∀ (n : Nat) (ds : List Char), n < fuel →
      (Nat.toDigitsCore 10 fuel n ds).foldl (fun a c => 10 * a + (c.toNat - 48)) 0
        = ds.foldl (fun a c => 10 * a + (c.toNat - 48)) n := by
  induction fuel with
  | zero => intro n ds h; omega
  | succ fuel ih =>
    intro n ds h
    unfold Nat.toDigitsCore
    by_cases h0 : n / 10 = 0
    · have hn : n < 10 := by omega
      simp only [h0, if_true, List.foldl_cons, Nat.mul_zero, Nat.zero_add]
      rw [Nat.mod_eq_of_lt hn, digitChar_value n hn]
    · simp only [h0, if_false]
      rw [ih (n / 10) _ (by omega), List.foldl_cons,
        digitChar_value (n % 10) (Nat.mod_lt _ (by decide))]
      congr 1
      omega

theorem decimalValue_repr (n : Nat) : decimalValue (Nat.repr n).data = n := by
  unfold decimalValue Nat.repr Nat.toDigits
  simp only [List.asString]
  rw [foldl_toDigitsCore (n + 1) n [] (by omega)]
  rfl

theorem reportedFaceSize_facesSizeLine (n : Nat) : reportedFaceSize (facesSizeLine n) = n := by
  unfold reportedFaceSize facesSizeLine
  have h : ("faces size: " ++ toString n ++ "\n").data
      = "faces size: ".data ++ ((Nat.repr n).data ++ ['\n']) := by
    simp [String.data_append]
    rfl
  rw [h]
  have h12 : "faces size: ".data.length = 12 := by decide
  rw [List.drop_append_of_le_length (by rw [h12]), ← h12, List.drop_length, List.nil_append,
    List.dropLast_concat]
  exact decimalValue_repr n

theorem facesSizeLine_injective (m n : Nat) (h : facesSizeLine m = facesSizeLine n) :
    m = n := by
  have := congrArg reportedFaceSize h
  rwa [reportedFaceSize_facesSizeLine, reportedFaceSize_facesSizeLine] at this

/-- Claim C8: the text sent to the diagnostic channel is one line per face
whose vertex count is not 3, in face iteration order; the line of a face with
`n` vertices is "faces size: " followed by the decimal digits of `n` and a
newline, so the count read back from each line is that face's vertex count and
different counts give different lines; triangular faces produce no line; and on
a valid mesh the call returns with exactly these diagnostics, whatever the face
sizes are. -/
theorem diagnostics_report_dropped_faces {R : Type} (wrap : Surface_mesh R) :
    extractedDiagnostics wrap
        = (wrap.faces.filter (fun f => decide ((wrap.vertices_around_face f).length ≠ 3))).map
            (fun f => facesSizeLine (wrap.vertices_around_face f).length) ∧
    facesSizeLine 4 = "faces size: 4\n" ∧
    (∀ (alpha_wrap_3 : WrapAlgorithm R) (h : Heap R) (mesh : TriMesh) (alpha offset : R)
      (points : List (Point_3 R)) (triangles : List (Nat × Nat × Nat)),
      ValidMesh h mesh → buildPoints h mesh = some points →
      buildTriangles h mesh = some triangles →
      alpha_wrap_3 points triangles alpha offset = some wrap →
      ∃ h1 mesh1, alphaWrapTriMesh alpha_wrap_3 true true h mesh alpha offset
        = Outcome.returned h1 mesh1 (extractedDiagnostics wrap)) ∧
    extractedDiagnostics wrap
        = (wrap.faces.filter (fun f => decide ((wrap.vertices_around_face f).length ≠ 3))).map
            (fun f => "faces size: " ++ Nat.repr (wrap.vertices_around_face f).length
              ++ "\n") ∧
    (extractedDiagnostics wrap).map reportedFaceSize
        = (wrap.faces.filter (fun f => decide ((wrap.vertices_around_face f).length ≠ 3))).map
            (fun f => (wrap.vertices_around_face f).length) ∧
    (∀ m n, facesSizeLine m = facesSizeLine n → m = n) := by
  refine ⟨extractedDiagnostics_eq wrap, by decide, ?_, ?_, ?_, facesSizeLine_injective⟩
  · intro alpha_wrap_3 h mesh alpha offset points triangles hvalid hp ht hw
    obtain ⟨ha, hb, _, _, _, _, heq⟩ :=
      alphaWrapTriMesh_eq alpha_wrap_3 true true h mesh alpha offset points triangles wrap
        hvalid hp ht hw
    exact ⟨_, _, heq⟩
  · rw [extractedDiagnostics_eq]
    rfl
  · rw [extractedDiagnostics_eq, List.map_map]
    apply List.map_congr_left
    intro f _
    exact reportedFaceSize_facesSizeLine _

/-- Witness for claim C8: the run on a surface with a five-vertex face, a
triangle and a two-vertex face reports 5 and 2. -/
theorem diagnostics_report_dropped_faces_witness :
    (extractedDiagnostics mixedFaces = ["faces size: 5\n", "faces size: 2\n"] ∧
      (extractedDiagnostics mixedFaces).map reportedFaceSize = [5, 2]) ∧
    ∃ h1 mesh1, alphaWrapTriMesh mixedAlgorithm true true triangleHeap triangleMesh 1 1
      = Outcome.returned h1 mesh1 (extractedDiagnostics mixedFaces) :=
  ⟨⟨by decide, by decide⟩,
   (diagnostics_report_dropped_faces mixedFaces).2.2.1 mixedAlgorithm triangleHeap
    triangleMesh 1 1 [⟨0, 0, 0⟩, ⟨1, 0, 0⟩, ⟨0, 1, 0⟩] [(0, 1, 2)]
    (by decide) (by decide) (by decide) rfl⟩

/-! ## The state after an allocation failure -/

theorem releaseEvents_eq_nil (p : Ptr) : releaseEvents p = [] ↔ p = 0 := by
  unfold releaseEvents
  by_cases h0 : p = 0 <;> simp [h0]

theorem heap_ne_of_release {R : Type} (h h1 : Heap R) (p q : Ptr)
    (hrel : h1.released = h.released ++ releaseEvents p ++ releaseEvents q)
    (hpq : p ≠ 0 ∨ q ≠ 0) : h1 ≠ h := by
  intro he
  rw [he] at hrel
  have hlen := congrArg List.length hrel
  simp only [List.length_append] at hlen
  have hz : (releaseEvents p).length = 0 ∧ (releaseEvents q).length = 0 := by omega
  have hp : p = 0 := (releaseEvents_eq_nil p).mp (List.length_eq_zero.mp hz.1)
  have hq : q = 0 := (releaseEvents_eq_nil q).mp (List.length_eq_zero.mp hz.2)
  rcases hpq with hc | hc
  · exact hc hp
  · exact hc hq

theorem owned_le_length {R : Type} (h : Heap R) (p : Ptr) (hp : h.ownsDoubles p = true) :
    p ≤ h.blocks.length := by
  rcases ownsDoubles_cases h p hp with h0 | ⟨_, cs, hcs⟩
  · rw [h0]
    exact Nat.zero_le _
  · exact le_of_pred_lt_length _ _ (getElem?_lt_of_some _ _ _ hcs)

/-- Claim C4, as amended: when an allocation of replacement storage fails on a
valid mesh, every non-null old array has already been released, `vertices.size`
holds the new length and `indices.arr` its pre-call value.  If the vertex
allocation failed, `vertices.arr` and `indices.size` also keep their pre-call
values, and heap and mesh are intact exactly when both old pointers were null
and the new vertex length equals the old one.  If the index allocation failed,
`vertices` holds the new array and `indices.size` the new length, and neither
heap nor mesh is intact.  Whenever an old pointer is non-null the heap is not
intact. -/
theorem allocation_failure_after_release {R : Type} (alpha_wrap_3 : WrapAlgorithm R)
    (okV okI : Bool) (h : Heap R) (mesh : TriMesh) (alpha offset : R)
    (points : List (Point_3 R)) (triangles : List (Nat × Nat × Nat)) (wrap : Surface_mesh R)
    (hvalid : ValidMesh h mesh)
    (hp : buildPoints h mesh = some points) (ht : buildTriangles h mesh = some triangles)
    (hw : alpha_wrap_3 points triangles alpha offset = some wrap)
    (hfail : okV = false ∨ okI = false) :
    ∃ h1 mesh1,
      alphaWrapTriMesh alpha_wrap_3 okV okI h mesh alpha offset
        = Outcome.threw h1 mesh1 (extractedDiagnostics wrap) ∧
      h1.released = h.released ++ releaseEvents mesh.vertices.arr
        ++ releaseEvents mesh.indices.arr ∧
      (mesh.vertices.arr ≠ 0 → ∃ cs, h1.block mesh.vertices.arr = some ⟨cs, false⟩) ∧
      (mesh.indices.arr ≠ 0 → ∃ cs, h1.block mesh.indices.arr = some ⟨cs, false⟩) ∧
      mesh1.vertices.size = (extractedVertices wrap).length ∧
      mesh1.indices.arr = mesh.indices.arr ∧
      (okV = false → mesh1.vertices.arr = mesh.vertices.arr ∧
        mesh1.indices.size = mesh.indices.size) ∧
      (okV = true → h1.doublesOf mesh1.vertices = some (extractedVertices wrap) ∧
        mesh1.indices.size = (extractedIndices wrap).length) ∧
      ((mesh.vertices.arr ≠ 0 ∨ mesh.indices.arr ≠ 0) → h1 ≠ h) ∧
      (okV = false →
        ((h1 = h ∧ mesh1 = mesh) ↔
          (mesh.vertices.arr = 0 ∧ mesh.indices.arr = 0 ∧
            (extractedVertices wrap).length = mesh.vertices.size))) ∧
      (okV = true → h1 ≠ h ∧ mesh1 ≠ mesh ∧ h.block mesh1.vertices.arr = none ∧
        ∃ cs, h1.block mesh1.vertices.arr = some ⟨cs, true⟩) := by
  obtain ⟨ha, hb, hd1, hd2, hlen, hrel, heq⟩ :=
    alphaWrapTriMesh_eq alpha_wrap_3 okV okI h mesh alpha offset points triangles wrap
      hvalid hp ht hw
  obtain ⟨deadV, deadI⟩ := deletes_dead h ha hb _ _ hd1 hd2
  cases okV with
  | false =>
    rw [if_neg (by decide)] at heq
    refine ⟨_, _, heq, hrel, ?_, ?_, rfl, rfl, fun _ => ⟨rfl, rfl⟩, (fun hc => by cases hc),
      heap_ne_of_release h hb _ _ hrel, fun _ => ?_, fun hc => by cases hc⟩
    · intro h0
      obtain ⟨cs, hcs⟩ := deadV h0
      exact ⟨cs, by simp [Heap.block, h0, hcs]⟩
    · intro h0
      obtain ⟨cs, hcs⟩ := deadI h0
      exact ⟨cs, by simp [Heap.block, h0, hcs]⟩
    · constructor
      · rintro ⟨e1, e2⟩
        have hv0 : mesh.vertices.arr = 0 := by
          by_contra hc
          exact heap_ne_of_release h hb _ _ hrel (Or.inl hc) e1
        have hi0 : mesh.indices.arr = 0 := by
          by_contra hc
          exact heap_ne_of_release h hb _ _ hrel (Or.inr hc) e1
        refine ⟨hv0, hi0, ?_⟩
        have := congrArg (fun m : TriMesh => m.vertices.size) e2
        exact this
      · rintro ⟨hv0, hi0, hsz⟩
        rw [hv0] at hd1
        rw [hi0] at hd2
        have ea : ha = h := by
          simp [Heap.deleteArr] at hd1
          exact hd1.symm
        have eb : hb = ha := by
          simp [Heap.deleteArr] at hd2
          exact hd2.symm
        refine ⟨by rw [eb, ea], ?_⟩
        rw [hsz]
  | true =>
    have hI : okI = false := by
      rcases hfail with hc | hc
      · cases hc
      · exact hc
    subst hI
    rw [if_pos rfl, if_neg (by decide)] at heq
    have hfresh : h.block (hb.blocks.length + 1) = none := by
      simp [Heap.block, hlen]
    have hlive : Heap.block
        ⟨hb.blocks ++ [⟨Cells.doubles ((extractedVertices wrap).map some), true⟩], hb.released⟩
        (hb.blocks.length + 1)
        = some ⟨Cells.doubles ((extractedVertices wrap).map some), true⟩ := by
      simp only [Heap.block, Nat.add_one_ne_zero, if_false, Nat.add_sub_cancel]
      rw [List.getElem?_append_right (le_refl _)]
      simp
    have hne : (⟨hb.blocks ++ [⟨Cells.doubles ((extractedVertices wrap).map some), true⟩],
        hb.released⟩ : Heap R) ≠ h := by
      intro he
      have := congrArg (fun x : Heap R => x.blocks.length) he
      simp only [List.length_append, List.length_singleton, hlen] at this
      omega
    have hmne : (⟨⟨hb.blocks.length + 1, (extractedVertices wrap).length⟩,
        ⟨mesh.indices.arr, (extractedIndices wrap).length⟩⟩ : TriMesh) ≠ mesh := by
      intro he
      have := congrArg (fun m : TriMesh => m.vertices.arr) he
      simp only at this
      have hle := owned_le_length h mesh.vertices.arr hvalid.2.2.1
      rw [← this, hlen] at hle
      exact Nat.not_succ_le_self _ hle
    refine ⟨_, _, heq, hrel, ?_, ?_, rfl, rfl, (fun hc => by cases hc), (fun _ => ⟨?_, rfl⟩),
      (fun _ => hne), (fun hc => by cases hc), fun _ => ⟨hne, hmne, hfresh, _, hlive⟩⟩
    · intro h0
      obtain ⟨cs, hcs⟩ := deadV h0
      exact ⟨cs, block_append_left _ _ _ _ _ hcs h0⟩
    · intro h0
      obtain ⟨cs, hcs⟩ := deadI h0
      exact ⟨cs, block_append_left _ _ _ _ _ hcs h0⟩
    · apply readAll_of_getElem? _ _ _ rfl
      intro k _
      exact readDouble_append_fresh _ _ _ k

/-- Witness for the amended claim C4: the vertex allocation fails on the
one-triangle mesh (both arrays released, mesh not intact); it fails on the empty
mesh with null pointers (nothing to release, heap and mesh intact); and the index
allocation fails on a mesh whose index pointer is null (one release only). -/
theorem allocation_failure_after_release_witness :
    (∃ h1 mesh1,
          alphaWrapTriMesh sampleAlgorithm false true triangleHeap triangleMesh 1 1
            = Outcome.threw h1 mesh1 (extractedDiagnostics quadAndTwoTriangles) ∧
          h1.released = triangleHeap.released ++ releaseEvents triangleMesh.vertices.arr
            ++ releaseEvents triangleMesh.indices.arr ∧
          (triangleMesh.vertices.arr ≠ 0 → ∃ cs, h1.block triangleMesh.vertices.arr = some ⟨cs, false⟩) ∧
          (triangleMesh.indices.arr ≠ 0 → ∃ cs, h1.block triangleMesh.indices.arr = some ⟨cs, false⟩) ∧
          mesh1.vertices.size = (extractedVertices quadAndTwoTriangles).length ∧
          mesh1.indices.arr = triangleMesh.indices.arr ∧
          (false = false → mesh1.vertices.arr = triangleMesh.vertices.arr ∧
            mesh1.indices.size = triangleMesh.indices.size) ∧
          (false = true → h1.doublesOf mesh1.vertices = some (extractedVertices quadAndTwoTriangles) ∧
            mesh1.indices.size = (extractedIndices quadAndTwoTriangles).length) ∧
          ((triangleMesh.vertices.arr ≠ 0 ∨ triangleMesh.indices.arr ≠ 0) → h1 ≠ triangleHeap) ∧
          (false = false →
            ((h1 = triangleHeap ∧ mesh1 = triangleMesh) ↔
              (triangleMesh.vertices.arr = 0 ∧ triangleMesh.indices.arr = 0 ∧
                (extractedVertices quadAndTwoTriangles).length = triangleMesh.vertices.size))) ∧
          (false = true → h1 ≠ triangleHeap ∧ mesh1 ≠ triangleMesh ∧ triangleHeap.block mesh1.vertices.arr = none ∧
            ∃ cs, h1.block mesh1.vertices.arr = some ⟨cs, true⟩)) ∧
    (∃ h1 mesh1,
          alphaWrapTriMesh emptyAlgorithm false true emptyHeap emptyMesh 1 1
            = Outcome.threw h1 mesh1 (extractedDiagnostics emptySurface) ∧
          h1.released = emptyHeap.released ++ releaseEvents emptyMesh.vertices.arr
            ++ releaseEvents emptyMesh.indices.arr ∧
          (emptyMesh.vertices.arr ≠ 0 → ∃ cs, h1.block emptyMesh.vertices.arr = some ⟨cs, false⟩) ∧
          (emptyMesh.indices.arr ≠ 0 → ∃ cs, h1.block emptyMesh.indices.arr = some ⟨cs, false⟩) ∧
          mesh1.vertices.size = (extractedVertices emptySurface).length ∧
          mesh1.indices.arr = emptyMesh.indices.arr ∧
          (false = false → mesh1.vertices.arr = emptyMesh.vertices.arr ∧
            mesh1.indices.size = emptyMesh.indices.size) ∧
          (false = true → h1.doublesOf mesh1.vertices = some (extractedVertices emptySurface) ∧
            mesh1.indices.size = (extractedIndices emptySurface).length) ∧
          ((emptyMesh.vertices.arr ≠ 0 ∨ emptyMesh.indices.arr ≠ 0) → h1 ≠ emptyHeap) ∧
          (false = false →
            ((h1 = emptyHeap ∧ mesh1 = emptyMesh) ↔
              (emptyMesh.vertices.arr = 0 ∧ emptyMesh.indices.arr = 0 ∧
                (extractedVertices emptySurface).length = emptyMesh.vertices.size))) ∧
          (false = true → h1 ≠ emptyHeap ∧ mesh1 ≠ emptyMesh ∧ emptyHeap.block mesh1.vertices.arr = none ∧
            ∃ cs, h1.block mesh1.vertices.arr = some ⟨cs, true⟩)) ∧
    (∃ h1 mesh1,
          alphaWrapTriMesh sampleAlgorithm true false verticesOnlyHeap verticesOnlyMesh 1 1
            = Outcome.threw h1 mesh1 (extractedDiagnostics quadAndTwoTriangles) ∧
          h1.released = verticesOnlyHeap.released ++ releaseEvents verticesOnlyMesh.vertices.arr
            ++ releaseEvents verticesOnlyMesh.indices.arr ∧
          (verticesOnlyMesh.vertices.arr ≠ 0 → ∃ cs, h1.block verticesOnlyMesh.vertices.arr = some ⟨cs, false⟩) ∧
          (verticesOnlyMesh.indices.arr ≠ 0 → ∃ cs, h1.block verticesOnlyMesh.indices.arr = some ⟨cs, false⟩) ∧
          mesh1.vertices.size = (extractedVertices quadAndTwoTriangles).length ∧
          mesh1.indices.arr = verticesOnlyMesh.indices.arr ∧
          (true = false → mesh1.vertices.arr = verticesOnlyMesh.vertices.arr ∧
            mesh1.indices.size = verticesOnlyMesh.indices.size) ∧
          (true = true → h1.doublesOf mesh1.vertices = some (extractedVertices quadAndTwoTriangles) ∧
            mesh1.indices.size = (extractedIndices quadAndTwoTriangles).length) ∧
          ((verticesOnlyMesh.vertices.arr ≠ 0 ∨ verticesOnlyMesh.indices.arr ≠ 0) → h1 ≠ verticesOnlyHeap) ∧
          (true = false →
            ((h1 = verticesOnlyHeap ∧ mesh1 = verticesOnlyMesh) ↔
              (verticesOnlyMesh.vertices.arr = 0 ∧ verticesOnlyMesh.indices.arr = 0 ∧
                (extractedVertices quadAndTwoTriangles).length = verticesOnlyMesh.vertices.size))) ∧
          (true = true → h1 ≠ verticesOnlyHeap ∧ mesh1 ≠ verticesOnlyMesh ∧ verticesOnlyHeap.block mesh1.vertices.arr = none ∧
            ∃ cs, h1.block mesh1.vertices.arr = some ⟨cs, true⟩)) :=
  ⟨allocation_failure_after_release sampleAlgorithm false true triangleHeap triangleMesh 1 1
      [⟨0, 0, 0⟩, ⟨1, 0, 0⟩, ⟨0, 1, 0⟩] [(0, 1, 2)] quadAndTwoTriangles
      (by decide) (by decide) (by decide) rfl (Or.inl rfl),
   allocation_failure_after_release emptyAlgorithm false true emptyHeap emptyMesh 1 1
      [] [] emptySurface (by decide) (by decide) (by decide) rfl (Or.inl rfl),
   allocation_failure_after_release sampleAlgorithm true false verticesOnlyHeap
      verticesOnlyMesh 1 1 [⟨1, 2, 3⟩] [] quadAndTwoTriangles
      (by decide) (by decide) (by decide) rfl (Or.inr rfl)⟩

end AlphaWrap
